import Mathlib

/-!
Verification of the rap-battle orchestration pipeline
(`app_gradio_fastapi`): a shallow embedding in Lean 4 of the battle
manager state machine, the BPM detection/snapping utilities, the audio
mixer, the waveform extractor, the script segmentation routines and the
progress stream adapter, together with theorems settling the spec claims.

Modelling conventions:
* Python floats are modelled as `ℚ` (the pipeline only ever manipulates
  them with field operations, comparisons and a square root; `Rat.sqrt`
  stands in for the floating-point square root).
* Audio (`pydub.AudioSegment`) is modelled as a list of samples indexed
  by millisecond: `len` is `List.length`, `seg * n` is `n`-fold
  repetition, `seg[:t]` is `List.take t`.
* Every external service call and every blocking `asyncio.to_thread`
  call the pipeline makes is an oracle field of an `Env` structure whose
  value is an `Except String _`: `.error e` models the call raising an
  exception with text `e`, `.ok v` models it returning `v`.
* `str | None` values that Python tests for truthiness are modelled as
  `Option String`, with `some s` truthy iff `s` is nonempty.
-/

/-! ## Python-style truthiness helpers -/

/-- Truthiness of a Python `str`: nonempty. -/
def strTruthy (s : String) : Bool := !s.isEmpty

/-- Truthiness of a Python `str | None` value. -/
def optTruthy : Option String → Bool
  | none => false
  | some s => strTruthy s

/-- Python `a or b` on `str | None` values: `a` if truthy, else `b`. -/
def pyOr (a b : Option String) : Option String :=
  if optTruthy a then a else b

/-! ## `bpm_detector.py` -/

/-- Oracle for the filesystem and the `librosa` tempo estimator:
`fileExists p` models `Path(p).exists()`; `tempoOf p = some t` models a
successful `librosa.load` + `beat_track` run returning tempo `t`, and
`tempoOf p = none` models any read/analysis failure (the `except` branch
of `detect_bpm`). -/
structure AudioWorld where
  fileExists : String → Bool
  tempoOf : String → Option ℚ

/-- `detect_bpm(audio_path)`: the detected tempo, or the default `120.0`
when loading or analysis fails (the function never raises). -/
def detect_bpm (w : AudioWorld) (audio_path : String) : ℚ :=
  match w.tempoOf audio_path with
  | some tempo => tempo
  | none => 120

/-- The paths of `audio_paths` that survive the guard
`if path and Path(path).exists():` in `detect_bpm_from_multiple`. -/
def readablePaths (w : AudioWorld) (audio_paths : List String) : List String :=
  audio_paths.filter (fun p => strTruthy p && w.fileExists p)

/-- `detect_bpm_from_multiple(audio_paths)`: average of `detect_bpm`
over the paths that pass the existence guard; `120.0` when the input
list is empty or no path passes the guard. -/
def detect_bpm_from_multiple (w : AudioWorld) (audio_paths : List String) : ℚ :=
  if audio_paths.isEmpty then 120
  else
    let bpms := (readablePaths w audio_paths).map (detect_bpm w)
    if bpms.isEmpty then 120 else bpms.sum / bpms.length

/-- Modelled from the spec claim's words (for refutation): the average
with *failed* detections skipped, i.e. only files whose analysis
actually succeeds contribute to the mean. This is NOT what the code
does; it is compared against `detect_bpm_from_multiple`. -/
def detect_average_claimed (w : AudioWorld) (audio_paths : List String) : ℚ :=
  let bpms := (readablePaths w audio_paths).filterMap w.tempoOf
  if audio_paths.isEmpty || bpms.isEmpty then 120
  else bpms.sum / bpms.length

/-- The fixed table of common hip-hop tempos in `snap_bpm_to_common`. -/
def commonBpms : List ℚ := [85, 90, 95, 100, 105, 110, 120, 130, 140, 145, 150]

/-- Python's `min(xs, key=f)` starting from current best `b`: replaces
the best only on a strictly smaller key, so the first minimiser wins. -/
def pyMin (f : ℚ → ℚ) (b : ℚ) : List ℚ → ℚ
  | [] => b
  | x :: xs => if f x < f b then pyMin f x xs else pyMin f b xs

/-- `snap_bpm_to_common(bpm)`: `min(common_bpms, key=lambda x: abs(x - bpm))`. -/
def snap_bpm_to_common (bpm : ℚ) : ℚ :=
  match commonBpms with
  | [] => 120
  | x :: xs => pyMin (fun z => |z - bpm|) x xs

/-! ## `audio_mixer.py` — `mix_rap_and_beat` -/

/-- Oracle for the mixer's surroundings: `readAudio p` is
`AudioSegment.from_file(p)` for an existing file `p` (and `none` when
the `Path(p).exists()` guard fails / `from_file` would fail);
`gain` is pydub's per-sample dB gain adjustment `seg + beat_volume_db`;
`combine` is pydub's per-sample overlay mixing. -/
structure MixFs where
  readAudio : String → Option (List ℤ)
  gain : ℤ → ℤ
  combine : ℤ → ℤ → ℤ

/-- The concatenation loop of `mix_rap_and_beat`: clips that pass
`if clip_path and Path(clip_path).exists():` are appended end-to-end
(`combined_rap += clip`), with no gap. -/
def combinedRap (fs : MixFs) (rap_clips : List String) : List ℤ :=
  rap_clips.foldl
    (fun acc clip_path =>
      if strTruthy clip_path then
        match fs.readAudio clip_path with
        | some clip => acc ++ clip
        | none => acc
      else acc)
    []

/-- `loops_needed = (total_duration_ms // beat_duration) + 1` — the
repetition count the code computes when the beat is shorter than the
vocals. -/
def loopsNeeded (total_duration_ms beat_duration : ℕ) : ℕ :=
  total_duration_ms / beat_duration + 1

/-- The repetition count the spec claims: `ceil(target_ms / track_ms)`. -/
def ceilDiv (target_ms track_ms : ℕ) : ℕ :=
  (target_ms + track_ms - 1) / track_ms

/-- The beat after the loop-and-trim step of `mix_rap_and_beat`:
`beat * loops_needed` when `beat_duration < total_duration_ms`, then
`beat[:total_duration_ms]`. -/
def loopTrimBeat (beat : List ℤ) (total_duration_ms : ℕ) : List ℤ :=
  (if beat.length < total_duration_ms then
      (List.replicate (loopsNeeded total_duration_ms beat.length) beat).flatten
    else beat).take total_duration_ms

/-- pydub's `base.overlay(over)`: combine samplewise, keep the tail of
the base beyond the overlay (the overlay never extends the base). -/
def overlaySeg (combine : ℤ → ℤ → ℤ) (base over : List ℤ) : List ℤ :=
  (List.zipWith combine base over) ++ base.drop over.length

/-- `mix_rap_and_beat(rap_clips, beat_path, ...)` down to the sample
level.  Raises (`.error`) when no valid rap clip was provided, when the
beat file cannot be read, or — as Python would with a
`ZeroDivisionError` — when the beat track is empty and shorter than the
vocals. On success, returns the mixed samples (the exported file's
contents at `output_path`). -/
def mix_rap_and_beat (fs : MixFs) (rap_clips : List String) (beat_path : String) :
    Except String (List ℤ) :=
  let combined_rap := combinedRap fs rap_clips
  if combined_rap.length = 0 then .error "No valid rap clips provided"
  else
    match fs.readAudio beat_path with
    | none => .error ("Could not read beat file: " ++ beat_path)
    | some beat =>
      let total_duration_ms := combined_rap.length
      if beat.length = 0 then .error "integer division or modulo by zero"
      else
        let beat' := (loopTrimBeat beat total_duration_ms).map fs.gain
        .ok (overlaySeg fs.combine beat' combined_rap)

/-! ## `audio_mixer.py` — `generate_waveform_data` -/

/-- Python's `round(x, 3)` (modelled with round-to-nearest; the
half-even versus half-up difference of CPython is immaterial to the
claims proved here). -/
def round3 (x : ℚ) : ℚ := ((round (x * 1000) : ℤ) : ℚ) / 1000

/-- The per-chunk amplitude computation of `generate_waveform_data`:
RMS, normalised against the 16-bit full scale, boosted by 3 and clipped
to `[0, 1]`, then rounded to three decimals.  `Rat.sqrt` stands in for
the floating-point square root. -/
def chunkAmplitude (chunk : List ℚ) : ℚ :=
  let rms := Rat.sqrt ((chunk.map (fun s => s ^ 2)).sum / chunk.length)
  let normalized := min 1 (rms / 32768)
  let scaled := min 1 (normalized * 3)
  round3 scaled

/-- `generate_waveform_data(audio_path, num_bars)` after the mono
samples have been decoded from the file: `num_bars` bucketed amplitude
values. -/
def generate_waveform_data (samples : List ℚ) (num_bars : ℕ) : List ℚ :=
  if samples.length = 0 then List.replicate num_bars 0
  else
    let chunk_size := max 1 (samples.length / num_bars)
    (List.range num_bars).map (fun i =>
      let start := i * chunk_size
      let stop := min (start + chunk_size) samples.length
      let chunk := (samples.drop start).take (stop - start)
      if chunk.length > 0 then chunkAmplitude chunk else 0)

/-! ## `script_parser.py` -/

/-- Python `str.isspace` characters relevant to `strip()` / `\s`. -/
def isPySpace (c : Char) : Bool :=
  c = ' ' || c = '\t' || c = '\n' || c = '\r' || c = '\x0b' || c = '\x0c'

/-- `\s*`: drop leading whitespace. -/
def dropWs (cs : List Char) : List Char := cs.dropWhile isPySpace

/-- Python `str.strip()`. -/
def stripChars (cs : List Char) : List Char :=
  ((cs.dropWhile isPySpace).reverse.dropWhile isPySpace).reverse

/-- Python `str.lower()` (ASCII). -/
def lowerChars (cs : List Char) : List Char := cs.map Char.toLower

/-- Python `str.split("\n")`. -/
def splitOnNl : List Char → List (List Char)
  | [] => [[]]
  | '\n' :: cs => [] :: splitOnNl cs
  | c :: cs =>
    match splitOnNl cs with
    | [] => [[c]]
    | l :: ls => (c :: l) :: ls

/-- Consume a literal character sequence, or fail. -/
def eatLit : List Char → List Char → Option (List Char)
  | [], cs => some cs
  | _ :: _, [] => none
  | k :: ks, c :: cs => if c = k then eatLit ks cs else none

/-- Consume one optional character (`\[?`, `\]?`, `:?`). -/
def eatOpt (ch : Char) : List Char → List Char
  | [] => []
  | c :: cs => if c = ch then cs else c :: cs

/-- The tail `\s*\]?:?\s*$` of the speaker-marker regexes. -/
def markerTail (cs : List Char) : Bool :=
  ((dropWs (eatOpt ':' (eatOpt ']' (dropWs cs))))).isEmpty

/-- Consume literal chunks separated by `\s*` (e.g. `person\s*a`). -/
def matchChunks : List (List Char) → List Char → Option (List Char)
  | [], cs => some cs
  | k :: ks, cs =>
    match eatLit k cs with
    | none => none
    | some rest => matchChunks ks (if ks.isEmpty then rest else dropWs rest)

/-- `re.match(r"^\[?\s*CHUNKS\s*\]?:?\s*$", cs)` for literal chunks
(the keywords contain no `[`, so no backtracking is needed). -/
def isMarkerRe (chunks : List (List Char)) (cs : List Char) : Bool :=
  match matchChunks chunks (dropWs (eatOpt '[' cs)) with
  | none => false
  | some rest => markerTail rest

/-- Speakers of a battle segment. -/
inductive Speaker where
  | person_a
  | person_b
  | both
deriving DecidableEq, Repr

/-- `check_speaker(line)` of `parse_rap_script`: conclusion/both/finale,
then `Person A` / `Person B`, then the custom fighter names
(case-insensitively). -/
def checkSpeaker (speaker_a_name speaker_b_name : String) (line : List Char) :
    Option Speaker :=
  let line_lower := lowerChars (stripChars line)
  if isMarkerRe ["conclusion".data] line_lower
      || isMarkerRe ["both".data] line_lower
      || isMarkerRe ["finale".data] line_lower then some .both
  else if isMarkerRe ["person".data, "a".data] line_lower then some .person_a
  else if isMarkerRe ["person".data, "b".data] line_lower then some .person_b
  else if strTruthy speaker_a_name
      && isMarkerRe [lowerChars speaker_a_name.data] (lowerChars line) then
    some .person_a
  else if strTruthy speaker_b_name
      && isMarkerRe [lowerChars speaker_b_name.data] (lowerChars line) then
    some .person_b
  else none

/-- `^\[?[A-Za-z\s]+\]?:?\s*$` — a candidate speaker-marker line in
`_detect_speaker_names`. -/
def nameLineRe (cs : List Char) : Bool :=
  let cs := eatOpt '[' cs
  let body := cs.takeWhile (fun c => c.isAlpha || isPySpace c)
  if body.isEmpty then false
  else ((dropWs (eatOpt ':' (eatOpt ']' (cs.drop body.length))))).isEmpty

/-- `re.sub(r"[\[\]:]+", "", line).strip()`. -/
def cleanName (cs : List Char) : List Char :=
  stripChars (cs.filter (fun c => !(c = '[' || c = ']' || c = ':')))

/-- The skip list of `_detect_speaker_names`. -/
def skipWords : List (List Char) :=
  ["verse".data, "chorus".data, "hook".data, "bridge".data, "intro".data,
   "outro".data, "conclusion".data, "both".data, "finale".data]

/-- The scanning loop of `_detect_speaker_names`: collect up to two
distinct short candidate names. -/
def detectLoop (acc : List (List Char)) : List (List Char) → List (List Char)
  | [] => acc
  | ln :: rest =>
    let line := stripChars ln
    if line.isEmpty then detectLoop acc rest
    else if line.length > 50 then detectLoop acc rest
    else if nameLineRe line then
      let name := cleanName line
      if skipWords.contains (lowerChars name) then detectLoop acc rest
      else
        let acc' := if !name.isEmpty && !acc.contains name then acc ++ [name] else acc
        if acc'.length ≥ 2 then acc' else detectLoop acc' rest
    else detectLoop acc rest

/-- One parsed turn of the battle script. -/
structure BattleSegment where
  index : ℕ
  speaker : Speaker
  verses : List String
  raw_text : String
  is_conclusion : Bool
deriving DecidableEq, Repr

/-- Python `"\n".join(ss)`. -/
def joinNl (ss : List String) : String := String.intercalate "\n" ss

/-- The mutable locals of `parse_rap_script`'s scanning loop. -/
structure ParseAcc where
  segments : List BattleSegment
  current_speaker : Option Speaker
  current_verses : List String
  current_raw : List String
  segment_index : ℕ

/-- `save_current_segment()`: flush the current verses into a segment
when a speaker is active and verses were collected. -/
def saveCurrentSegment (a : ParseAcc) : ParseAcc :=
  match a.current_speaker with
  | some sp =>
    if a.current_verses.isEmpty then
      { a with current_verses := [], current_raw := [] }
    else
      { segments := a.segments ++
          [⟨a.segment_index, sp, a.current_verses, joinNl a.current_raw,
            sp == Speaker.both⟩]
        current_speaker := a.current_speaker
        current_verses := []
        current_raw := []
        segment_index := a.segment_index + 1 }
  | none => { a with current_verses := [], current_raw := [] }

/-- The body of `parse_rap_script`'s `for line in lines` loop. -/
def parseLine (nameA nameB : String) (a : ParseAcc) (line : List Char) : ParseAcc :=
  let line_stripped := stripChars line
  if line_stripped.isEmpty then a
  else
    match checkSpeaker nameA nameB line_stripped with
    | some sp =>
      let a := saveCurrentSegment a
      { a with current_speaker := some sp }
    | none =>
      match a.current_speaker with
      | some _ =>
        { a with
          current_verses := a.current_verses ++ [String.mk line_stripped]
          current_raw := a.current_raw ++ [String.mk line] }
      | none => a

/-- `parse_rap_script(script, speaker_a_name, speaker_b_name)`. -/
def parse_rap_script (script : String)
    (speaker_a_name speaker_b_name : String) : List BattleSegment :=
  let lines := splitOnNl (stripChars script.data)
  let detected_names : List String :=
    if !strTruthy speaker_a_name || !strTruthy speaker_b_name then
      (detectLoop [] lines).map String.mk
    else []
  let nameA :=
    if !strTruthy speaker_a_name then
      match detected_names with
      | n :: _ => n
      | [] => speaker_a_name
    else speaker_a_name
  let nameB :=
    if !strTruthy speaker_b_name then
      match detected_names with
      | _ :: n :: _ => n
      | _ => speaker_b_name
    else speaker_b_name
  let aEnd := saveCurrentSegment (lines.foldl (parseLine nameA nameB) ⟨[], none, [], [], 0⟩)
  if aEnd.segments.isEmpty && strTruthy (String.mk (stripChars script.data)) then
    [⟨0, .person_a, (splitOnNl (stripChars script.data)).map String.mk,
      String.mk (stripChars script.data), false⟩]
  else aEnd.segments

/-- `expected_speakers` in `ensure_five_segments`. -/
def expectedSpeakersFive : List Speaker :=
  [.person_a, .person_b, .person_a, .person_b, .both]

/-- The `while len(result) < target` padding loop: append `"..."`
placeholder segments until the target count is reached (`fuel` bounds
the iteration count; each pass grows the list by one, so `target`
passes always suffice). -/
def padLoop (target : ℕ) (expected : List Speaker) :
    ℕ → List BattleSegment → List BattleSegment
  | 0, segs => segs
  | fuel + 1, segs =>
    if segs.length < target then
      padLoop target expected fuel
        (segs ++ [⟨segs.length, expected.getD segs.length .both, ["..."], "...",
          segs.length == target - 1⟩])
    else segs

/-- The padding loop entered with enough fuel. -/
def padTo (target : ℕ) (expected : List Speaker) (segs : List BattleSegment) :
    List BattleSegment :=
  padLoop target expected target segs

/-- `ensure_five_segments(segments)`: exactly five segments — identity
at five, pad with placeholders below five, merge extras into the
conclusion above five. -/
def ensure_five_segments (segments : List BattleSegment) : List BattleSegment :=
  if segments.length = 5 then segments
  else if segments.length < 5 then padTo 5 expectedSpeakersFive segments
  else
    let rest := segments.drop 4
    segments.take 4 ++
      [⟨4, .both, (rest.map (fun s => s.verses)).flatten,
        joinNl (rest.map (fun s => s.raw_text)), true⟩]

/-! ## `battle_manager.py` — data model -/

/-- `BattleStage`: pipeline stages for battle generation. -/
inductive BattleStage where
  | queued
  | parsing
  | style_ref_a
  | style_ref_b
  | voice_a
  | voice_b
  | bpm_detect
  | beat_gen
  | mixing
  | talkhead
  | lipsync_heads
  | complete
  | failed
deriving DecidableEq, Repr

/-- `BattleConfig`: configuration for a rap battle (the fields the
pipeline reads; `str | None` uploads are `Option String`). -/
structure BattleConfig where
  video_style : String
  location : String
  beat_style : String
  test_mode : Bool
  audio_only : Bool
  fighter_a_name : String
  fighter_a_description : String
  fighter_a_style : String
  fighter_a_lyrics : String
  fighter_b_name : String
  fighter_b_description : String
  fighter_b_style : String
  fighter_b_lyrics : String
  time_period : String := "present day"
  fighter_a_image_path : Option String := none
  fighter_a_voice_path : Option String := none
  fighter_b_image_path : Option String := none
  fighter_b_voice_path : Option String := none
  fighter_a_twitter : Option String := none
  fighter_b_twitter : Option String := none
  fighter_a_voice_recorded : Bool := false
  fighter_b_voice_recorded : Bool := false
deriving DecidableEq, Repr

/-- The structured lyric-to-time alignment produced by
`align_battle_verses` (a JSON dict; truthiness = nonemptiness). -/
def TimingData := List (String × ℚ × ℚ)
deriving DecidableEq, Repr

/-- `BattleState`: the mutable record of a single run (the `created_at`
timestamp is wall-clock and not modelled). -/
structure BattleState where
  battle_id : String
  config : BattleConfig
  stage : BattleStage := .queued
  progress : ℚ := 0
  message : String := "Battle queued"
  audio_url : Option String := none
  error : Option String := none
  audio_clips : List String := []
  detected_bpm : Option ℚ := none
  beat_path : Option String := none
  mixed_audio_path : Option String := none
  timing_data : Option TimingData := none
  waveform : List ℚ := []
  talking_head_a : Option String := none
  talking_head_b : Option String := none
deriving DecidableEq, Repr

/-- `Path(p).name`: the last `/`-separated component. -/
def lastComponent (s : String) : String := (s.splitOn "/").getLastD s

/-- Decimal rendering of a pipeline number for f-strings (the snapped
BPM is always an integer, rendered without a denominator). -/
def pyNum (q : ℚ) : String :=
  if q.den = 1 then toString q.num else toString q.num ++ "/" ++ toString q.den

/-- `_state_to_dict(state)`: the JSON projection pushed onto the SSE
queue.  `status` is derived from `stage`, never stored. -/
structure Snapshot where
  battle_id : String
  stage : BattleStage
  progress : ℚ
  message : String
  status : String
  audio_url : Option String
  detected_bpm : Option ℚ
  error : Option String
  timing_data : Option TimingData := none
  waveform : Option (List ℚ) := none
  talking_head_a_url : Option String := none
  talking_head_b_url : Option String := none
deriving DecidableEq, Repr

/-- `_state_to_dict` itself. -/
def state_to_dict (st : BattleState) : Snapshot :=
  { battle_id := st.battle_id
    stage := st.stage
    progress := st.progress
    message := st.message
    status := if st.stage = .complete then "complete"
              else if st.stage = .failed then "failed" else "in_progress"
    audio_url := st.audio_url
    detected_bpm := st.detected_bpm
    error := st.error
    timing_data :=
      match st.timing_data with
      | some td => if td.isEmpty then none else some td
      | none => none
    waveform := if st.waveform.isEmpty then none else some st.waveform
    talking_head_a_url :=
      match st.talking_head_a with
      | some p => if p.isEmpty then none else some ("/outputs/" ++ lastComponent p)
      | none => none
    talking_head_b_url :=
      match st.talking_head_b with
      | some p => if p.isEmpty then none else some ("/outputs/" ++ lastComponent p)
      | none => none }

/-- The keyword arguments of one `_emit_update(battle_id, **kwargs)`
call: `some v` models the keyword being present with value `v`. -/
structure Update where
  stage : Option BattleStage := none
  progress : Option ℚ := none
  message : Option String := none
  audio_url : Option String := none
  detected_bpm : Option ℚ := none
  error : Option String := none

/-- The state mutation performed by `_emit_update`. -/
def applyUpdate (u : Update) (st : BattleState) : BattleState :=
  { st with
    stage := u.stage.getD st.stage
    progress := u.progress.getD st.progress
    message := u.message.getD st.message
    audio_url := match u.audio_url with | some x => some x | none => st.audio_url
    detected_bpm := match u.detected_bpm with | some x => some x | none => st.detected_bpm
    error := match u.error with | some x => some x | none => st.error }

/-- A run's view of the world: the shared `BattleState` plus the
sequence of snapshots pushed so far onto the run's SSE queue. -/
structure PipeSt where
  state : BattleState
  snaps : List Snapshot
deriving DecidableEq, Repr

/-- `_emit_update`: mutate the state, then push `_state_to_dict(state)`
onto the run's queue (inside the pipeline the queue and state always
exist, so the early-return guard never fires). -/
def emitU (u : Update) (s : PipeSt) : PipeSt :=
  let st := applyUpdate u s.state
  ⟨st, s.snaps ++ [state_to_dict st]⟩

/-- Result of a pipeline fragment: normal completion, or a raised
exception with text `e` — the mutated shared state `s` survives the
exception (Python objects are not rolled back). -/
inductive StepResult (α : Type) where
  | ok (a : α)
  | err (e : String) (s : PipeSt)
deriving DecidableEq, Repr

/-- Sequencing of pipeline fragments: an exception short-circuits. -/
def stepBind {α β : Type} : StepResult α → (α → StepResult β) → StepResult β
  | .ok a, f => f a
  | .err e s, _ => .err e s

/-! ## `config/style_presets.py` -/

/-- `STYLE_PRESETS` (paths relative to the project root). -/
def STYLE_PRESETS : List (String × String) :=
  [("UK Grime 1 (Stormzy)", "voices/stormzy_trimmed.mp3"),
   ("UK Grime 2 (Skepta)", "voices/skepta_trimmed.mp3"),
   ("NY Rap (A$AP Rocky)", "voices/asap_rocky_trimmed.mp3"),
   ("Toronto Rap (Drake)", "voices/drake_pushups_trimmed.mp3"),
   ("West Coast (Kendrick)", "voices/kendrick_euphoria_trimmed.mp3"),
   ("West Coast OG (2Pac)", "voices/2pac_trimmed.mp3"),
   ("East Coast OG (Biggie)", "voices/biggie_trimmed.mp3"),
   ("Detroit (Eminem)", "voices/eminem_trimmed.mp3"),
   ("Wu-Tang (GZA)", "voices/gza_trimmed.mp3"),
   ("Chicago (Kanye)", "voices/kanye_trimmed.mp3"),
   ("New Orleans (Lil Wayne)", "voices/lil_wayne_trimmed.mp3"),
   ("Atlanta Trap (Migos)", "voices/migos_trimmed.mp3")]

/-- `get_preset_path(label)`: the preset clip path, `None` for custom
labels. -/
def get_preset_path (label : String) : Option String :=
  STYLE_PRESETS.lookup label

/-! ## `battle_manager.py` — the pipeline -/

/-- Oracle for every external call / `asyncio.to_thread` hop of
`_run_full_pipeline`, one field per call site.  `.error e` models the
call raising an exception with text `e`.  Arguments of the calls
(lyrics, style instructions, resolved voice sample, …) are absorbed by
the per-site oracle.  When the two members of an `asyncio.gather` pair
both raise, the model deterministically propagates the A-side text (in
Python, whichever exception happens first in real time propagates). -/
structure Env where
  create_style_reference_a : Except String (Option String × Option String × String)
  create_style_reference_b : Except String (Option String × Option String × String)
  generate_rap_voice_a : Except String (Option String × String)
  generate_rap_voice_b : Except String (Option String × String)
  audio : AudioWorld
  generate_beat_pattern_r : Except String (Option String × String)
  generate_from_json_r : Except String String
  mixfs : MixFs
  generate_video_a : Except String (Option String × String)
  generate_video_b : Except String (Option String × String)
  upload_video_a : Except String (Option String × String)
  upload_audio_a : Except String (Option String × String)
  lipsync_call_a : Except String (Option String × String)
  upload_video_b : Except String (Option String × String)
  upload_audio_b : Except String (Option String × String)
  lipsync_call_b : Except String (Option String × String)
  mixed_samples : Except String (List ℚ)
  align_verses_r : Except String TimingData

/-- The style-reference resolution shared by stages 2 and 3: fuse when
both the identity upload and the preset clip are present, fall back to
`voice_identity or style_source` when the adapter returns no artifact,
and to the same fallback when either input is missing. -/
def resolveStyleRef
    (callResult : Except String (Option String × Option String × String))
    (voice_identity style_source : Option String) :
    Except String (Option String) :=
  if optTruthy voice_identity && optTruthy style_source then
    match callResult with
    | .error e => .error e
    | .ok (style_ref, _voice_id, _status) =>
      .ok (if optTruthy style_ref then style_ref
           else pyOr voice_identity style_source)
  else .ok (pyOr voice_identity style_source)

/-- The kwargs of each `_emit_update` call site of `_run_full_pipeline`,
named after their stage, in source order. -/
def updParsing : Update :=
  { stage := some .parsing, progress := some 2, message := some "Parsing lyrics..." }

/-- kwargs of the STYLE_REF_A entry emit. -/
def updStyleRefA (cfg : BattleConfig) : Update :=
  { stage := some .style_ref_a, progress := some 4,
    message := some ("Creating style reference for " ++ cfg.fighter_a_name ++ "...") }

/-- kwargs of the "style reference ready" emit for fighter A. -/
def updStyleRefADone (cfg : BattleConfig) : Update :=
  { progress := some 10, message := some (cfg.fighter_a_name ++ " style reference ready") }

/-- kwargs of the STYLE_REF_B entry emit. -/
def updStyleRefB (cfg : BattleConfig) : Update :=
  { stage := some .style_ref_b, progress := some 12,
    message := some ("Creating style reference for " ++ cfg.fighter_b_name ++ "...") }

/-- kwargs of the "style reference ready" emit for fighter B. -/
def updStyleRefBDone (cfg : BattleConfig) : Update :=
  { progress := some 18, message := some (cfg.fighter_b_name ++ " style reference ready") }

/-- kwargs of the VOICE_A entry emit. -/
def updVoiceA (cfg : BattleConfig) : Update :=
  { stage := some .voice_a, progress := some 20,
    message := some ("Generating voice for " ++ cfg.fighter_a_name ++ "...") }

/-- kwargs of the "voice complete" emit for fighter A. -/
def updVoiceADone (cfg : BattleConfig) : Update :=
  { progress := some 26, message := some (cfg.fighter_a_name ++ " voice complete") }

/-- kwargs of the VOICE_B entry emit. -/
def updVoiceB (cfg : BattleConfig) : Update :=
  { stage := some .voice_b, progress := some 28,
    message := some ("Generating voice for " ++ cfg.fighter_b_name ++ "...") }

/-- kwargs of the "voice complete" emit for fighter B. -/
def updVoiceBDone (cfg : BattleConfig) : Update :=
  { progress := some 34, message := some (cfg.fighter_b_name ++ " voice complete") }

/-- kwargs of the BPM_DETECT entry emit — note progress 30 after the
previous stage emitted 34. -/
def updBpm : Update :=
  { stage := some .bpm_detect, progress := some 30,
    message := some "Detecting BPM from rap audio..." }

/-- kwargs of the "Detected BPM" emit. -/
def updBpmDone (target_bpm : ℚ) : Update :=
  { progress := some 32, message := some ("Detected BPM: " ++ pyNum target_bpm),
    detected_bpm := some target_bpm }

/-- kwargs of the BEAT_GEN entry emit. -/
def updBeatGen (cfg : BattleConfig) (target_bpm : ℚ) : Update :=
  { stage := some .beat_gen, progress := some 35,
    message := some ("Generating " ++ cfg.beat_style ++ " beat at "
      ++ pyNum target_bpm ++ " BPM...") }

/-- kwargs of the "Beat generated" emit. -/
def updBeatDone : Update :=
  { progress := some 42, message := some "Beat generated" }

/-- kwargs of the MIXING entry emit. -/
def updMixing : Update :=
  { stage := some .mixing, progress := some 45, message := some "Mixing vocals and beat..." }

/-- kwargs of the "Audio mix complete" emit. -/
def updMixDone (audio_url : String) : Update :=
  { progress := some 50, message := some "Audio mix complete",
    audio_url := some audio_url }

/-- kwargs of the TALKHEAD entry emit. -/
def updTalkhead : Update :=
  { stage := some .talkhead, progress := some 52,
    message := some "Generating talking head videos (Runway)..." }

/-- kwargs of the LIPSYNC_HEADS entry emit. -/
def updLipsync : Update :=
  { stage := some .lipsync_heads, progress := some 65,
    message := some "Applying lip sync (Sync Labs)..." }

/-- kwargs of the "arena data" emit. -/
def updArenaData : Update :=
  { progress := some 80, message := some "Generating battle arena data..." }

/-- kwargs of the "aligning lyrics" emit. -/
def updAlign : Update :=
  { progress := some 90, message := some "Aligning lyrics to audio..." }

/-- kwargs of the COMPLETE emit. -/
def updComplete (audio_url : String) : Update :=
  { stage := some .complete, progress := some 100,
    message := some "Battle complete!", audio_url := some audio_url }

/-- A plain state mutation (no emit): `state.<field> = value`. -/
def setState (f : BattleState → BattleState) (s : PipeSt) : PipeSt :=
  { s with state := f s.state }

/-- Stage 1: parse lyrics (the `asyncio.sleep(0.3)` is a no-op here). -/
def stParsing (s : PipeSt) : StepResult (PipeSt × Unit) :=
  .ok (emitU updParsing s, ())

/-- Stage 2: create style reference A. -/
def stStyleRefA (env : Env) (cfg : BattleConfig) (s : PipeSt) :
    StepResult (PipeSt × Option String) :=
  let s := emitU (updStyleRefA cfg) s
  match resolveStyleRef env.create_style_reference_a
      cfg.fighter_a_voice_path (get_preset_path cfg.fighter_a_style) with
  | .error e => .err e s
  | .ok style_ref_a => .ok (emitU (updStyleRefADone cfg) s, style_ref_a)

/-- Stage 3: create style reference B. -/
def stStyleRefB (env : Env) (cfg : BattleConfig) (s : PipeSt) :
    StepResult (PipeSt × Option String) :=
  let s := emitU (updStyleRefB cfg) s
  match resolveStyleRef env.create_style_reference_b
      cfg.fighter_b_voice_path (get_preset_path cfg.fighter_b_style) with
  | .error e => .err e s
  | .ok style_ref_b => .ok (emitU (updStyleRefBDone cfg) s, style_ref_b)

/-- Stage 4: generate fighter A's vocal.  A missing artifact raises
`Exception(f"Failed to generate voice for {name}: {status}")`. -/
def stVoiceA (env : Env) (cfg : BattleConfig) (_style_ref_a : Option String)
    (s : PipeSt) : StepResult (PipeSt × String) :=
  let s := emitU (updVoiceA cfg) s
  match env.generate_rap_voice_a with
  | .error e => .err e s
  | .ok (audio_a, gen_status_a) =>
    if optTruthy audio_a then
      .ok (emitU (updVoiceADone cfg) s, audio_a.getD "")
    else
      .err ("Failed to generate voice for " ++ cfg.fighter_a_name
            ++ ": " ++ gen_status_a) s

/-- Stage 5: generate fighter B's vocal, then record
`state.audio_clips = [audio_a, audio_b]` before the final emit. -/
def stVoiceB (env : Env) (cfg : BattleConfig) (audio_a : String)
    (_style_ref_b : Option String) (s : PipeSt) : StepResult (PipeSt × String) :=
  let s := emitU (updVoiceB cfg) s
  match env.generate_rap_voice_b with
  | .error e => .err e s
  | .ok (audio_b, gen_status_b) =>
    if optTruthy audio_b then
      let s := setState (fun st => { st with audio_clips := [audio_a, audio_b.getD ""] }) s
      .ok (emitU (updVoiceBDone cfg) s, audio_b.getD "")
    else
      .err ("Failed to generate voice for " ++ cfg.fighter_b_name
            ++ ": " ++ gen_status_b) s

/-- BPM stage: detect from the recorded clips (the repository's own
`detect_bpm_from_multiple` / `snap_bpm_to_common`, which never raise),
store the snapped tempo (`state.detected_bpm = target_bpm`) and emit it. -/
def stBpmDetect (env : Env) (s : PipeSt) : StepResult (PipeSt × ℚ) :=
  let s := emitU updBpm s
  let detected_bpm := detect_bpm_from_multiple env.audio s.state.audio_clips
  let target_bpm := snap_bpm_to_common detected_bpm
  let s := setState (fun st => { st with detected_bpm := some target_bpm }) s
  .ok (emitU (updBpmDone target_bpm) s, target_bpm)

/-- Beat stage: generate a pattern (raising on a missing artifact) and
render it (`generate_from_json` raises on malformed JSON); record
`state.beat_path`. -/
def stBeatGen (env : Env) (cfg : BattleConfig) (target_bpm : ℚ) (s : PipeSt) :
    StepResult (PipeSt × String) :=
  let s := emitU (updBeatGen cfg target_bpm) s
  match env.generate_beat_pattern_r with
  | .error e => .err e s
  | .ok (beat_json, beat_status) =>
    if !optTruthy beat_json then
      .err ("Failed to generate beat pattern: " ++ beat_status) s
    else
      match env.generate_from_json_r with
      | .error e => .err e s
      | .ok beat_path =>
        let s := setState (fun st => { st with beat_path := some beat_path }) s
        .ok (emitU updBeatDone s, beat_path)

/-- The output file name `battle_{battle_id[:8]}.mp3` of the mix. -/
def audioFilename (battle_id : String) : String :=
  "battle_" ++ battle_id.take 8 ++ ".mp3"

/-- Mixing stage: the repository's own `mix_rap_and_beat` (which raises
on missing clips), then record the exported path and emit the URL. -/
def stMixing (env : Env) (battle_id : String) (beat_path : String) (s : PipeSt) :
    StepResult (PipeSt × String) :=
  let s := emitU updMixing s
  match mix_rap_and_beat env.mixfs s.state.audio_clips beat_path with
  | .error e => .err e s
  | .ok _mixed =>
    let s := setState (fun st =>
      { st with mixed_audio_path := some ("outputs/" ++ audioFilename battle_id) }) s
    .ok (emitU (updMixDone ("/outputs/" ++ audioFilename battle_id)) s,
         "/outputs/" ++ audioFilename battle_id)

/-- Talking-head stage (audio-only mode): emitted only when at least one
fighter image exists; the two Runway generations run as a gathered pair. -/
def stTalkhead (env : Env) (cfg : BattleConfig) (s : PipeSt) :
    StepResult (PipeSt × (Option String × Option String)) :=
  if optTruthy cfg.fighter_a_image_path || optTruthy cfg.fighter_b_image_path then
    let s := emitU updTalkhead s
    let resA := if optTruthy cfg.fighter_a_image_path then env.generate_video_a
                else .ok (none, "No image")
    let resB := if optTruthy cfg.fighter_b_image_path then env.generate_video_b
                else .ok (none, "No image")
    match resA, resB with
    | .error e, _ => .err e s
    | _, .error e => .err e s
    | .ok (base_video_a, _), .ok (base_video_b, _) =>
      .ok (s, (base_video_a, base_video_b))
  else .ok (s, (none, none))

/-- `lipsync_a()` / `lipsync_b()`: skip without a base video, upload the
video and the vocal to the temp host, bail out softly when an upload
returns no URL, else call the lip-sync adapter. -/
def lipsyncClosure (base_video : Option String)
    (upVideo upAudio lsCall : Except String (Option String × String)) :
    Except String (Option String × String) :=
  if !optTruthy base_video then .ok (none, "No base video")
  else
    match upVideo with
    | .error e => .error e
    | .ok (video_url, _) =>
      match upAudio with
      | .error e => .error e
      | .ok (audio_url, _) =>
        if !optTruthy video_url || !optTruthy audio_url then .ok (none, "Upload failed")
        else lsCall

/-- Lip-sync stage (audio-only mode): emitted only when a base video
exists; results are stored only when truthy. -/
def stLipsyncHeads (env : Env) (base_video_a base_video_b : Option String)
    (s : PipeSt) : StepResult (PipeSt × Unit) :=
  if optTruthy base_video_a || optTruthy base_video_b then
    let s := emitU updLipsync s
    match lipsyncClosure base_video_a env.upload_video_a env.upload_audio_a
            env.lipsync_call_a,
          lipsyncClosure base_video_b env.upload_video_b env.upload_audio_b
            env.lipsync_call_b with
    | .error e, _ => .err e s
    | _, .error e => .err e s
    | .ok (talking_head_a, _), .ok (talking_head_b, _) =>
      let s := if optTruthy talking_head_a then
          setState (fun st => { st with talking_head_a := talking_head_a }) s
        else s
      let s := if optTruthy talking_head_b then
          setState (fun st => { st with talking_head_b := talking_head_b }) s
        else s
      .ok (s, ())
  else .ok (s, ())

/-- Waveform stage: read the mixed audio (oracle) and bucket it with the
repository's own `generate_waveform_data` at 100 bars. -/
def stWaveform (env : Env) (s : PipeSt) : StepResult (PipeSt × Unit) :=
  let s := emitU updArenaData s
  match env.mixed_samples with
  | .error e => .err e s
  | .ok samples =>
    .ok (setState (fun st => { st with waveform := generate_waveform_data samples 100 }) s,
         ())

/-- Alignment and completion: align lyrics, record the timing data, then
emit `COMPLETE` at progress 100 with the audio URL. -/
def stFinish (env : Env) (audio_url : String) (s : PipeSt) :
    StepResult (PipeSt × Unit) :=
  let s := emitU updAlign s
  match env.align_verses_r with
  | .error e => .err e s
  | .ok timing_data =>
    let s := setState (fun st => { st with timing_data := some timing_data }) s
    .ok (emitU (updComplete audio_url) s, ())

/-- Sequencing of pipeline stages, passing the surviving data item of
one stage to the next; an exception short-circuits. -/
def seqSt {α β : Type} (f : PipeSt → StepResult (PipeSt × α))
    (g : α → PipeSt → StepResult (PipeSt × β)) (s : PipeSt) :
    StepResult (PipeSt × β) :=
  match f s with
  | .ok (s', a) => g a s'
  | .err e s' => .err e s'

/-- The `if config.audio_only:` block. -/
def stArena (env : Env) (cfg : BattleConfig) (audio_url : String) :
    PipeSt → StepResult (PipeSt × Unit) :=
  seqSt (stTalkhead env cfg) fun bases =>
  seqSt (stLipsyncHeads env bases.1 bases.2) fun _ =>
  seqSt (stWaveform env) fun _ =>
  stFinish env audio_url

/-- The tail of the `try:` body after the parsing stage. In full-video
mode (`audio_only = False`) the source's `try` block simply ends after
the mixing stage, so the run stops there without a terminal emit. -/
def runRest (env : Env) (cfg : BattleConfig) (battle_id : String) :
    PipeSt → StepResult (PipeSt × Unit) :=
  seqSt (stStyleRefA env cfg) fun style_ref_a =>
  seqSt (stStyleRefB env cfg) fun style_ref_b =>
  seqSt (stVoiceA env cfg style_ref_a) fun audio_a =>
  seqSt (stVoiceB env cfg audio_a style_ref_b) fun _audio_b =>
  seqSt (stBpmDetect env) fun target_bpm =>
  seqSt (stBeatGen env cfg target_bpm) fun beat_path =>
  seqSt (stMixing env battle_id beat_path) fun audio_url =>
  fun s => if cfg.audio_only then stArena env cfg audio_url s else .ok (s, ())

/-- The whole `try:` body of `_run_full_pipeline`. -/
def runBody (env : Env) (cfg : BattleConfig) (battle_id : String) :
    PipeSt → StepResult (PipeSt × Unit) :=
  seqSt stParsing fun _ => runRest env cfg battle_id

/-- The fresh `BattleState` made by `create_battle`, with an empty SSE
queue. -/
def initPipeSt (battle_id : String) (config : BattleConfig) : PipeSt :=
  ⟨{ battle_id := battle_id, config := config }, []⟩

/-- The kwargs of the `except Exception as e:` handler's emit: stage
FAILED, the progress currently in the state, and the exception text as
both message and error. -/
def updFailed (e : String) (progress : ℚ) : Update :=
  { stage := some .failed, progress := some progress,
    message := some e, error := some e }

/-- `_run_full_pipeline`: run the body; any escaped exception is caught
once at the top and converted into a single `FAILED` emit carrying the
current progress and the exception text as both message and error. -/
def run_full_pipeline (env : Env) (config : BattleConfig) (battle_id : String) :
    PipeSt :=
  match runBody env config battle_id (initPipeSt battle_id config) with
  | .ok (s, _) => s
  | .err e s => emitU (updFailed e s.state.progress) s

/-! ## `battle_manager.py` — SSE streaming and cleanup -/

/-- One interaction of `stream_progress`'s wait loop with the run's
queue: an update arriving, or a 30-second `asyncio.TimeoutError`. -/
inductive QueueEvent where
  | item (d : Snapshot)
  | timeout
deriving DecidableEq

/-- One server-sent event: the error object of the not-found paths, a
state snapshot, or a heartbeat. -/
inductive StreamEvent where
  | errorEv (msg : String)
  | snap (d : Snapshot)
  | heartbeat
deriving DecidableEq

/-- The `while True:` loop of `stream_progress`: forward queue items,
emit a heartbeat on timeout, stop after a `complete`/`failed` status. -/
def streamLoop : List QueueEvent → List StreamEvent
  | [] => []
  | .timeout :: rest => .heartbeat :: streamLoop rest
  | .item d :: rest =>
    .snap d :: (if d.status = "complete" || d.status = "failed" then []
                else streamLoop rest)

/-- The process-wide run registry (`_battles`, `_queues`). -/
structure Registry where
  battles : String → Option BattleState
  queues : String → Option (List Snapshot)

/-- `stream_progress(battle_id)` over a given trace of queue activity:
yields a single error object when the queue or the state is missing,
else the current snapshot followed by the loop's events. -/
def stream_progress (reg : Registry) (battle_id : String)
    (trace : List QueueEvent) : List StreamEvent :=
  match reg.queues battle_id with
  | none => [.errorEv "Battle not found"]
  | some _ =>
    match reg.battles battle_id with
    | none => [.errorEv "Battle state not found"]
    | some st => .snap (state_to_dict st) :: streamLoop trace

/-- `cleanup_battle(battle_id)`: delete the run from both registries. -/
def cleanup_battle (reg : Registry) (battle_id : String) : Registry :=
  { battles := fun k => if k = battle_id then none else reg.battles k
    queues := fun k => if k = battle_id then none else reg.queues k }

/-! ## Invariant language for the pipeline theorems -/

/-- One admissible step of the emitted progress sequence: non-decreasing,
except for the one regression the source contains — the BPM_DETECT entry
emit carries progress 30 right after VOICE_B finished at 34. -/
def ProgOk (a b : ℚ) : Prop := a ≤ b ∨ (a = 34 ∧ b = 30)

/-- A progress value within the documented `[0, 100]` band. -/
def progRange (q : ℚ) : Prop := 0 ≤ q ∧ q ≤ 100

/-- The progress values carried by a snapshot list. -/
def snapProgs (l : List Snapshot) : List ℚ := l.map Snapshot.progress

/-- Last element of a list, with a default. -/
def lastD {γ : Type} : List γ → γ → γ
  | [], d => d
  | x :: xs, _ => lastD xs x

/-- The state's progress always agrees with the last snapshot pushed
(every pipeline emit passes a `progress` kwarg). -/
def Tracks (s : PipeSt) : Prop :=
  ∀ sn, s.snaps.getLast? = some sn → sn.progress = s.state.progress

/-- All pipeline stages. -/
def allStages : List BattleStage :=
  [.queued, .parsing, .style_ref_a, .style_ref_b, .voice_a, .voice_b,
   .bpm_detect, .beat_gen, .mixing, .talkhead, .lipsync_heads, .complete, .failed]

/-- Behavioural contract of one pipeline stage entered at progress `pIn`
with a consistent state: it only appends snapshots, whose progress
values chain admissibly from `pIn`, stay in range, and whose stages lie
in `stgs`; consistency is preserved, the final stored progress is the
last value emitted (or `pIn` if nothing was emitted), and on normal
completion it lies in `outs`. -/
structure StageSpec {α : Type} (f : PipeSt → StepResult (PipeSt × α))
    (pIn : ℚ) (outs : List ℚ) (stgs : List BattleStage) : Prop where
  ok : ∀ s s' a, s.state.progress = pIn → Tracks s → f s = .ok (s', a) →
    ∃ new, s'.snaps = s.snaps ++ new ∧
      List.Chain ProgOk pIn (snapProgs new) ∧
      (∀ q ∈ snapProgs new, progRange q) ∧
      (∀ sn ∈ new, sn.stage ∈ stgs) ∧
      Tracks s' ∧
      s'.state.progress ∈ outs ∧
      lastD (snapProgs new) pIn = s'.state.progress
  err : ∀ s e s', s.state.progress = pIn → Tracks s → f s = .err e s' →
    ∃ new, s'.snaps = s.snaps ++ new ∧
      List.Chain ProgOk pIn (snapProgs new) ∧
      (∀ q ∈ snapProgs new, progRange q) ∧
      (∀ sn ∈ new, sn.stage ∈ stgs) ∧
      Tracks s' ∧
      lastD (snapProgs new) pIn = s'.state.progress

/-! ## Concrete worlds and configurations used by witnesses and
counterexamples -/

/-- A world with no readable audio files (BPM falls back to 120). -/
def audioWorldW : AudioWorld := ⟨fun _ => false, fun _ => none⟩

/-- A world for the C5 scenario: every path exists, analysis succeeds
only for `"a"` (100 BPM) and fails for every other file. -/
def audioWorld5 : AudioWorld :=
  ⟨fun _ => true, fun p => if p = "a" then some 100 else none⟩

/-- Readable vocals `a.mp3`/`b.mp3` and a 1 ms beat for a full run. -/
def mixFsW : MixFs :=
  ⟨fun p =>
      if p = "a.mp3" then some [100]
      else if p = "b.mp3" then some [50]
      else if p = "beat.mp3" then some [7]
      else none,
    fun x => x, fun x y => x + y⟩

/-- A 4 ms vocal and a 2 ms beat: the divisible case of the looper. -/
def mixFs6 : MixFs :=
  ⟨fun p =>
      if p = "v.mp3" then some [1, 2, 3, 4]
      else if p = "beat.mp3" then some [9, 9]
      else none,
    fun x => x, fun x y => x + y⟩

/-- An environment where every external call succeeds benignly. -/
def envOK : Env :=
  { create_style_reference_a := .ok (none, none, "no creds")
    create_style_reference_b := .ok (none, none, "no creds")
    generate_rap_voice_a := .ok (some "a.mp3", "ok")
    generate_rap_voice_b := .ok (some "b.mp3", "ok")
    audio := audioWorldW
    generate_beat_pattern_r := .ok (some "patternjson", "ok")
    generate_from_json_r := .ok "beat.mp3"
    mixfs := mixFsW
    generate_video_a := .ok (none, "No image")
    generate_video_b := .ok (none, "No image")
    upload_video_a := .ok (none, "n/a")
    upload_audio_a := .ok (none, "n/a")
    lipsync_call_a := .ok (none, "n/a")
    upload_video_b := .ok (none, "n/a")
    upload_audio_b := .ok (none, "n/a")
    lipsync_call_b := .ok (none, "n/a")
    mixed_samples := .ok []
    align_verses_r := .ok [] }

/-- `envOK` with the style-transfer call for fighter A raising. -/
def envStyleBoom : Env := { envOK with create_style_reference_a := .error "boom" }

/-- `envOK` with voice synthesis for fighter A returning no artifact. -/
def envVoiceNone : Env :=
  { envOK with generate_rap_voice_a := .ok (none, "Grok API key missing") }

/-- `envOK` with both style-transfer calls returning no fused artifact. -/
def envStyleNone : Env :=
  { envOK with
    create_style_reference_a := .ok (none, none, "style transfer failed")
    create_style_reference_b := .ok (none, none, "style transfer failed") }

/-- An audio-only configuration with no uploads. -/
def cfgW : BattleConfig :=
  { video_style := "cinematic", location := "arena", beat_style := "trap",
    test_mode := false, audio_only := true,
    fighter_a_name := "A", fighter_a_description := "", fighter_a_style := "custom",
    fighter_a_lyrics := "la la", fighter_b_name := "B", fighter_b_description := "",
    fighter_b_style := "custom", fighter_b_lyrics := "lb lb" }

/-- `cfgW` with fighter A supplying both a voice identity sample and a
preset style clip (and B likewise). -/
def cfgBoth : BattleConfig :=
  { cfgW with
    fighter_a_voice_path := some "va.mp3"
    fighter_a_style := "Detroit (Eminem)"
    fighter_b_voice_path := some "vb.mp3"
    fighter_b_style := "Chicago (Kanye)" }

/-- The pipeline state at the point where `envStyleBoom` makes the run
raise: parsing emitted, the STYLE_REF_A entry emitted, then the
style-transfer call for fighter A raised `"boom"`. -/
def c1ErrSt : PipeSt :=
  emitU (updStyleRefA cfgBoth) (emitU updParsing (initPipeSt "b1" cfgBoth))

/-! # Theorems -/

/-! ## C4 — `snap_bpm_to_common` -/

/-- The running best of Python's `min` never has a larger key than the
seed. -/
theorem pyMin_le_seed (f : ℚ → ℚ) :
    ∀ (l : List ℚ) (b : ℚ), f (pyMin f b l) ≤ f b := by
  intro l
  induction l with
  | nil => intro b; simp [pyMin]
  | cons x xs ih =>
    intro b
    by_cases hx : f x < f b
    · simpa [pyMin, hx] using le_trans (ih x) (le_of_lt hx)
    · simpa [pyMin, hx] using ih b

/-- Characterisation of Python's first-minimiser `min`: the result
splits the scanned list into a strictly-worse prefix and a no-better
suffix. -/
theorem pyMin_first (f : ℚ → ℚ) :
    ∀ (l : List ℚ) (b : ℚ), ∃ l₁ l₂,
      b :: l = l₁ ++ pyMin f b l :: l₂ ∧
      (∀ y ∈ l₁, f (pyMin f b l) < f y) ∧
      (∀ y ∈ l₂, f (pyMin f b l) ≤ f y) := by
  intro l
  induction l with
  | nil => intro b; exact ⟨[], [], rfl, by simp, by simp⟩
  | cons x xs ih =>
    intro b
    by_cases hx : f x < f b
    · obtain ⟨m₁, m₂, hsplit, hstrict, hle⟩ := ih x
      have hr : pyMin f b (x :: xs) = pyMin f x xs := by simp [pyMin, hx]
      have hrb : f (pyMin f x xs) < f b := lt_of_le_of_lt (pyMin_le_seed f xs x) hx
      refine ⟨b :: m₁, m₂, ?_, ?_, ?_⟩
      · rw [hr]; exact congrArg (b :: ·) hsplit
      · intro y hy
        rcases List.mem_cons.mp hy with rfl | hy
        · rw [hr]; exact hrb
        · rw [hr]; exact hstrict y hy
      · intro y hy; rw [hr]; exact hle y hy
    · obtain ⟨m₁, m₂, hsplit, hstrict, hle⟩ := ih b
      have hr : pyMin f b (x :: xs) = pyMin f b xs := by simp [pyMin, hx]
      have hbx : f b ≤ f x := le_of_not_lt hx
      cases m₁ with
      | nil =>
        simp only [List.nil_append, List.cons.injEq] at hsplit
        obtain ⟨hrb, hm₂⟩ := hsplit
        refine ⟨[], x :: xs, ?_, by simp, ?_⟩
        · rw [hr, ← hrb]; rfl
        · intro y hy
          rcases List.mem_cons.mp hy with rfl | hy
          · rw [hr, ← hrb]; exact hbx
          · rw [hr]; exact hle y (hm₂ ▸ hy)
      | cons c m₁' =>
        simp only [List.cons_append, List.cons.injEq] at hsplit
        obtain ⟨hc, hxs⟩ := hsplit
        have hfb : f (pyMin f b xs) < f b := by
          have h2 := hstrict c (List.mem_cons_self c m₁')
          rw [← hc] at h2
          exact h2
        refine ⟨b :: x :: m₁', m₂, ?_, ?_, ?_⟩
        · rw [hr]
          show b :: x :: xs = b :: x :: (m₁' ++ pyMin f b xs :: m₂)
          rw [← hxs]
        · intro y hy
          rcases List.mem_cons.mp hy with rfl | hy
          · rw [hr]; exact hfb
          · rcases List.mem_cons.mp hy with rfl | hy
            · rw [hr]; exact lt_of_lt_of_le hfb hbx
            · rw [hr]; exact hstrict y (List.mem_cons_of_mem c hy)
        · intro y hy; rw [hr]; exact hle y hy

/-- C4 — `snap_bpm_to_common(bpm)` always returns a member of the fixed
common-tempo table, its distance to `bpm` is minimal over the table,
and every table entry listed before the result is at strictly greater
distance — so on an exact tie the first-listed member wins. -/
theorem snap_bpm_to_common_spec (bpm : ℚ) :
    snap_bpm_to_common bpm ∈ commonBpms ∧
    (∀ y ∈ commonBpms, |snap_bpm_to_common bpm - bpm| ≤ |y - bpm|) ∧
    ∃ l₁ l₂, commonBpms = l₁ ++ snap_bpm_to_common bpm :: l₂ ∧
      (∀ y ∈ l₁, |snap_bpm_to_common bpm - bpm| < |y - bpm|) := by
  obtain ⟨l₁, l₂, hsplit, hstrict, hle⟩ :=
    pyMin_first (fun z => |z - bpm|) [90, 95, 100, 105, 110, 120, 130, 140, 145, 150] 85
  have hsnap : snap_bpm_to_common bpm =
      pyMin (fun z => |z - bpm|) 85 [90, 95, 100, 105, 110, 120, 130, 140, 145, 150] := by
    simp [snap_bpm_to_common, commonBpms]
  have hsplit' : commonBpms = l₁ ++ snap_bpm_to_common bpm :: l₂ := by
    rw [hsnap]; exact hsplit
  refine ⟨?_, ?_, l₁, l₂, hsplit', ?_⟩
  · rw [hsplit']; exact List.mem_append_right _ (List.mem_cons_self _ _)
  · intro y hy
    rw [hsplit'] at hy
    rcases List.mem_append.mp hy with hy | hy
    · rw [hsnap]; exact le_of_lt (hstrict y hy)
    · rcases List.mem_cons.mp hy with rfl | hy
      · exact le_refl _
      · rw [hsnap]; exact hle y hy
  · intro y hy; rw [hsnap]; exact hstrict y hy

/-- Witness for C4 at the real midpoint `97.5` between 95 and 100: the
result is in the table and no further from `97.5` than 100 is. -/
theorem snap_bpm_to_common_spec_witness :
    snap_bpm_to_common (195 / 2) ∈ commonBpms ∧
    |snap_bpm_to_common (195 / 2) - 195 / 2| ≤ |(100 : ℚ) - 195 / 2| :=
  ⟨(snap_bpm_to_common_spec (195 / 2)).1,
   (snap_bpm_to_common_spec (195 / 2)).2.1 100 (by decide)⟩

/-! ## C5 — `detect_bpm` / `detect_bpm_from_multiple` -/

/-- C5 counterexample: with file `"a"` detected at 100 BPM and file
`"b"` existing but failing analysis, the code averages in the 120
default for `"b"` (result 110) instead of skipping the failed detection
(which would give 100). -/
theorem detect_bpm_from_multiple_counterexample :
    detect_bpm_from_multiple audioWorld5 ["a", "b"] = 110 ∧
    detect_average_claimed audioWorld5 ["a", "b"] = 100 ∧
    detect_bpm_from_multiple audioWorld5 ["a", "b"] ≠
      detect_average_claimed audioWorld5 ["a", "b"] := by
  have h1 : readablePaths audioWorld5 ["a", "b"] = ["a", "b"] := by decide
  have hda : detect_bpm audioWorld5 "a" = 100 := by decide
  have hdb : detect_bpm audioWorld5 "b" = 120 := by decide
  have hfm : List.filterMap audioWorld5.tempoOf ["a", "b"] = [100] := by decide
  have ha : detect_bpm_from_multiple audioWorld5 ["a", "b"] = 110 := by
    simp only [detect_bpm_from_multiple, h1, List.map_cons, List.map_nil, hda, hdb]
    norm_num
  have hb : detect_average_claimed audioWorld5 ["a", "b"] = 100 := by
    simp only [detect_average_claimed, h1, hfm]
    norm_num
  exact ⟨ha, hb, by rw [ha, hb]; norm_num⟩

/-- C5 amended: `detect_bpm` never raises and returns 120 on analysis
failure; `detect_bpm_from_multiple` returns 120 on an empty list or
when no path passes the `path and Path(path).exists()` guard, and
otherwise averages `detect_bpm` over the surviving paths — a file that
exists but fails analysis contributes the 120 default to the mean
rather than being skipped. -/
theorem detect_bpm_from_multiple_spec (w : AudioWorld) (paths : List String) :
    (∀ p, w.tempoOf p = none → detect_bpm w p = 120) ∧
    (paths = [] → detect_bpm_from_multiple w paths = 120) ∧
    (readablePaths w paths = [] → detect_bpm_from_multiple w paths = 120) ∧
    (readablePaths w paths ≠ [] →
      detect_bpm_from_multiple w paths =
        ((readablePaths w paths).map (detect_bpm w)).sum /
          ((readablePaths w paths).map (detect_bpm w)).length) := by
  refine ⟨?_, ?_, ?_, ?_⟩
  · intro p hp; simp [detect_bpm, hp]
  · intro h; simp [detect_bpm_from_multiple, h]
  · intro h; simp [detect_bpm_from_multiple, h]
  · intro h
    have hne : ¬paths.isEmpty := by
      intro hp
      exact h (by simp [readablePaths, List.isEmpty_iff.mp hp])
    simp [detect_bpm_from_multiple, hne, h]

/-- Witness for C5 (amended): the failure default and the empty-list
default, at concrete inputs. -/
theorem detect_bpm_from_multiple_spec_witness :
    detect_bpm audioWorld5 "b" = 120 ∧
    detect_bpm_from_multiple audioWorld5 [] = 120 :=
  ⟨(detect_bpm_from_multiple_spec audioWorld5 []).1 "b" (by decide),
   (detect_bpm_from_multiple_spec audioWorld5 []).2.1 rfl⟩

/-! ## C6 — `mix_rap_and_beat` looping -/

/-- `a < (a / b + 1) * b` for positive `b`. -/
theorem lt_div_succ_mul (a b : ℕ) (hb : 0 < b) : a < (a / b + 1) * b := by
  have h := Nat.div_add_mod a b
  have h2 := Nat.mod_lt a hb
  have h3 : (a / b + 1) * b = b * (a / b) + b := by ring
  omega

/-- Length of an `n`-fold repetition. -/
theorem flatten_replicate_length (n : ℕ) (l : List ℤ) :
    (List.replicate n l).flatten.length = n * l.length := by
  induction n with
  | zero => simp
  | succ m ih => simp [List.replicate_succ, ih, Nat.succ_mul]; ring

/-- Fewer repetitions form a prefix of more repetitions. -/
theorem flatten_replicate_prefix (m k : ℕ) (l : List ℤ) (h : m ≤ k) :
    (List.replicate m l).flatten <+: (List.replicate k l).flatten := by
  obtain ⟨d, rfl⟩ := Nat.exists_eq_add_of_le h
  exact ⟨(List.replicate d l).flatten, by
    rw [← List.flatten_append, ← List.replicate_add]⟩

/-- Taking from a prefix-extension within the prefix's length agrees. -/
theorem take_eq_of_prefix {l₁ l₂ : List ℤ} (h : l₁ <+: l₂) {n : ℕ}
    (hn : n ≤ l₁.length) : l₂.take n = l₁.take n := by
  obtain ⟨t, rfl⟩ := h
  exact List.take_append_of_le_length hn

/-- `ceilDiv` never exceeds the `floor + 1` count the code uses. -/
theorem ceilDiv_le_loopsNeeded (t b : ℕ) (hb : 0 < b) :
    ceilDiv t b ≤ loopsNeeded t b := by
  unfold ceilDiv loopsNeeded
  calc (t + b - 1) / b ≤ (t + b) / b := Nat.div_le_div_right (by omega)
  _ = t / b + 1 := Nat.add_div_right t hb

/-- `ceilDiv t b` repetitions of a track of length `b` cover `t`. -/
theorem le_ceilDiv_mul (t b : ℕ) (hb : 0 < b) : t ≤ ceilDiv t b * b := by
  rcases Nat.eq_zero_or_pos t with rfl | ht
  · exact Nat.zero_le _
  · unfold ceilDiv
    have h1 : t + b - 1 = (t - 1) + b := by omega
    rw [h1, Nat.add_div_right _ hb]
    have h2 := lt_div_succ_mul (t - 1) b hb
    omega

/-- `ceilDiv` against the code's count: equal unless the track length
divides the target exactly, where the code makes one extra repetition. -/
theorem loopsNeeded_vs_ceilDiv (t b : ℕ) (hb : 0 < b) (ht : 0 < t) :
    (¬ b ∣ t → loopsNeeded t b = ceilDiv t b) ∧
    (b ∣ t → loopsNeeded t b = ceilDiv t b + 1) := by
  constructor
  · intro hnd
    have hr : t % b ≠ 0 := fun h => hnd (Nat.dvd_of_mod_eq_zero h)
    have hmod := Nat.div_add_mod t b
    have hlt := Nat.mod_lt t hb
    have h1 : t + b - 1 = b * (t / b + 1) + (t % b - 1) := by
      have hx : b * (t / b + 1) = b * (t / b) + b := by ring
      omega
    have h2 : (t % b - 1) / b = 0 := Nat.div_eq_of_lt (by omega)
    have hceil : ceilDiv t b = t / b + 1 := by
      unfold ceilDiv
      rw [h1, Nat.mul_add_div hb, h2]
    unfold loopsNeeded
    omega
  · intro hd
    obtain ⟨m, rfl⟩ := hd
    have hm : 0 < m := by
      rcases Nat.eq_zero_or_pos m with rfl | h
      · simp at ht
      · exact h
    have h1 : b * m + b - 1 = b * m + (b - 1) := by omega
    have h2 : (b - 1) / b = 0 := Nat.div_eq_of_lt (by omega)
    have hceil : ceilDiv (b * m) b = m := by
      unfold ceilDiv
      rw [h1, Nat.mul_add_div hb, h2]
      omega
    have hfloor : b * m / b = m := Nat.mul_div_cancel_left m hb
    unfold loopsNeeded
    omega

/-- The no-gap concatenation: `combined_rap` is exactly the in-order
flattening of the readable clips. -/
theorem combinedRap_flatten (fs : MixFs) (clips : List String) :
    combinedRap fs clips =
      (clips.filterMap (fun p => if strTruthy p then fs.readAudio p else none)).flatten := by
  suffices h : ∀ (cl : List String) (acc : List ℤ),
      List.foldl (fun acc clip_path =>
        if strTruthy clip_path then
          match fs.readAudio clip_path with
          | some clip => acc ++ clip
          | none => acc
        else acc) acc cl =
      acc ++ (cl.filterMap (fun p => if strTruthy p then fs.readAudio p else none)).flatten by
    simpa [combinedRap] using h clips []
  intro cl
  induction cl with
  | nil => intro acc; simp
  | cons p ps ih =>
    intro acc
    by_cases hp : strTruthy p
    · cases hr : fs.readAudio p with
      | some c => simp [hp, hr, ih, List.filterMap_cons]
      | none => simp [hp, hr, ih, List.filterMap_cons]
    · simp [hp, ih, List.filterMap_cons]

/-- The looped-and-trimmed under-beat has exactly the vocal duration. -/
theorem loopTrimBeat_length (beat : List ℤ) (t : ℕ) (hb : beat.length ≠ 0) :
    (loopTrimBeat beat t).length = t := by
  unfold loopTrimBeat
  by_cases h : beat.length < t
  · have h2 := lt_div_succ_mul t beat.length (Nat.pos_of_ne_zero hb)
    rw [if_pos h]
    simp only [List.length_take, flatten_replicate_length, loopsNeeded]
    omega
  · rw [if_neg h]
    simp only [List.length_take]
    omega

/-- The looped-and-trimmed under-beat is a prefix of
`beat * ceil(t / beat_ms)`. -/
theorem loopTrimBeat_prefix (beat : List ℤ) (t : ℕ) (hb : beat.length ≠ 0) :
    loopTrimBeat beat t <+: (List.replicate (ceilDiv t beat.length) beat).flatten := by
  have hbpos : 0 < beat.length := Nat.pos_of_ne_zero hb
  unfold loopTrimBeat
  by_cases h : beat.length < t
  · rw [if_pos h]
    have hck := ceilDiv_le_loopsNeeded t beat.length hbpos
    have hcb := le_ceilDiv_mul t beat.length hbpos
    have hpre := flatten_replicate_prefix (ceilDiv t beat.length)
      (loopsNeeded t beat.length) beat hck
    have heq : (List.replicate (loopsNeeded t beat.length) beat).flatten.take t =
        (List.replicate (ceilDiv t beat.length) beat).flatten.take t :=
      take_eq_of_prefix hpre (by rw [flatten_replicate_length]; exact hcb)
    rw [heq]
    exact List.take_prefix _ _
  · rw [if_neg h]
    rcases Nat.eq_zero_or_pos t with rfl | ht
    · simp
    · have hc1 : 1 ≤ ceilDiv t beat.length := by
        unfold ceilDiv
        rw [Nat.one_le_div_iff hbpos]
        omega
      obtain ⟨d, hd⟩ := Nat.exists_eq_add_of_le hc1
      have hflat : (List.replicate (ceilDiv t beat.length) beat).flatten =
          beat ++ (List.replicate d beat).flatten := by
        rw [hd, List.replicate_add]; simp
      rw [hflat]
      exact (List.take_prefix t beat).trans (List.prefix_append beat _)

/-- C6 counterexample: with a 2 ms beat under 4 ms of vocals (so the
beat is shorter than the vocals and divides their duration exactly),
the code repeats the beat `loopsNeeded 4 2 = 3` times, not
`ceil(4/2) = 2` times as the claim states. -/
theorem mix_loop_count_counterexample :
    (combinedRap mixFs6 ["v.mp3"]).length = 4 ∧
    (mixFs6.readAudio "beat.mp3").map List.length = some 2 ∧
    loopsNeeded 4 2 = 3 ∧ ceilDiv 4 2 = 2 ∧
    loopsNeeded 4 2 ≠ ceilDiv 4 2 := by
  refine ⟨by decide, by decide, by decide, by decide, by decide⟩

/-- C6 amended: when the clips yield a nonempty vocal track and the
beat file is readable and nonempty, `mix_rap_and_beat` succeeds and
overlays the vocals on `(loopTrimBeat beat t).map gain` where
`t` is the vocal duration; the vocals are the gap-free concatenation of
the readable clips; the under-beat has length exactly `t` and is a
prefix of the beat repeated `ceil(t / beat_ms)` times; and the
repetition count actually used is `t / beat_ms + 1` — equal to the
ceiling unless the beat length divides `t`, where one extra repetition
is made (and then trimmed away). -/
theorem mix_rap_and_beat_spec (fs : MixFs) (rap_clips : List String)
    (beat_path : String) (beat : List ℤ)
    (hread : fs.readAudio beat_path = some beat)
    (hb : beat.length ≠ 0)
    (ht : (combinedRap fs rap_clips).length ≠ 0) :
    mix_rap_and_beat fs rap_clips beat_path =
      .ok (overlaySeg fs.combine
        ((loopTrimBeat beat (combinedRap fs rap_clips).length).map fs.gain)
        (combinedRap fs rap_clips)) ∧
    combinedRap fs rap_clips =
      (rap_clips.filterMap (fun p => if strTruthy p then fs.readAudio p else none)).flatten ∧
    (loopTrimBeat beat (combinedRap fs rap_clips).length).length =
      (combinedRap fs rap_clips).length ∧
    loopTrimBeat beat (combinedRap fs rap_clips).length <+:
      (List.replicate (ceilDiv (combinedRap fs rap_clips).length beat.length) beat).flatten ∧
    (beat.length < (combinedRap fs rap_clips).length →
      (¬ beat.length ∣ (combinedRap fs rap_clips).length →
        loopsNeeded (combinedRap fs rap_clips).length beat.length =
          ceilDiv (combinedRap fs rap_clips).length beat.length) ∧
      (beat.length ∣ (combinedRap fs rap_clips).length →
        loopsNeeded (combinedRap fs rap_clips).length beat.length =
          ceilDiv (combinedRap fs rap_clips).length beat.length + 1)) := by
  refine ⟨?_, combinedRap_flatten fs rap_clips,
    loopTrimBeat_length beat _ hb, loopTrimBeat_prefix beat _ hb, ?_⟩
  · simp [mix_rap_and_beat, ht, hread, hb]
  · intro hlt
    exact loopsNeeded_vs_ceilDiv _ _ (Nat.pos_of_ne_zero hb) (by omega)

/-- Witness for C6 (amended) at a concrete readable beat and clip list. -/
theorem mix_rap_and_beat_spec_witness :
    mix_rap_and_beat mixFs6 ["v.mp3"] "beat.mp3" =
      .ok (overlaySeg mixFs6.combine
        ((loopTrimBeat [9, 9] (combinedRap mixFs6 ["v.mp3"]).length).map mixFs6.gain)
        (combinedRap mixFs6 ["v.mp3"])) ∧
    (loopTrimBeat [9, 9] (combinedRap mixFs6 ["v.mp3"]).length).length =
      (combinedRap mixFs6 ["v.mp3"]).length :=
  ⟨(mix_rap_and_beat_spec mixFs6 ["v.mp3"] "beat.mp3" [9, 9]
      (by decide) (by decide) (by decide)).1,
   (mix_rap_and_beat_spec mixFs6 ["v.mp3"] "beat.mp3" [9, 9]
      (by decide) (by decide) (by decide)).2.2.1⟩

/-! ## C9 — `generate_waveform_data` -/

/-- Each bucket amplitude lies in `[0, 1]`: the RMS is nonnegative, both
normalisation and the ×3 boost are clipped at 1, and rounding to three
decimals preserves the band. -/
theorem chunkAmplitude_bounds (chunk : List ℚ) :
    0 ≤ chunkAmplitude chunk ∧ chunkAmplitude chunk ≤ 1 := by
  unfold chunkAmplitude round3
  set rms := Rat.sqrt ((chunk.map (fun s => s ^ 2)).sum / chunk.length) with hrms
  have h0 : 0 ≤ rms := Rat.sqrt_nonneg _
  have hn0 : 0 ≤ min 1 (rms / 32768) := le_min (by norm_num) (by positivity)
  have hn1 : min 1 (rms / 32768) ≤ 1 := min_le_left _ _
  have hs0 : 0 ≤ min 1 (min 1 (rms / 32768) * 3) := le_min (by norm_num) (by positivity)
  have hs1 : min 1 (min 1 (rms / 32768) * 3) ≤ 1 := min_le_left _ _
  constructor
  · apply div_nonneg _ (by norm_num)
    have hfl : (0 : ℤ) ≤ round (min 1 (min 1 (rms / 32768) * 3) * 1000) := by
      rw [round_eq]
      apply Int.floor_nonneg.mpr
      nlinarith
    exact_mod_cast hfl
  · rw [div_le_one (by norm_num)]
    have hfl : round (min 1 (min 1 (rms / 32768) * 3) * 1000) ≤ 1000 := by
      rw [round_eq]
      rw [Int.floor_le_iff]
      push_cast
      nlinarith
    exact_mod_cast hfl

/-- C9 — for decoded mono samples and any `num_bars ≥ 1`,
`generate_waveform_data` returns exactly `num_bars` values, all within
`[0.0, 1.0]`. -/
theorem generate_waveform_data_spec (samples : List ℚ) (num_bars : ℕ)
    (_h : 1 ≤ num_bars) :
    (generate_waveform_data samples num_bars).length = num_bars ∧
    ∀ v ∈ generate_waveform_data samples num_bars, 0 ≤ v ∧ v ≤ 1 := by
  unfold generate_waveform_data
  by_cases hs : samples.length = 0
  · rw [if_pos hs]
    refine ⟨List.length_replicate _ _, ?_⟩
    intro v hv
    rw [List.eq_of_mem_replicate hv]
    norm_num
  · rw [if_neg hs]
    refine ⟨by simp, ?_⟩
    intro v hv
    simp only [List.mem_map, List.mem_range] at hv
    obtain ⟨i, _, rfl⟩ := hv
    split
    · exact ⟨(chunkAmplitude_bounds _).1, (chunkAmplitude_bounds _).2⟩
    · norm_num

/-- Witness for C9 at two concrete samples and two buckets. -/
theorem generate_waveform_data_spec_witness :
    (generate_waveform_data [3, 4] 2).length = 2 ∧
    ∀ v ∈ generate_waveform_data [3, 4] 2, 0 ≤ v ∧ v ≤ 1 :=
  ⟨(generate_waveform_data_spec [3, 4] 2 (by decide)).1,
   (generate_waveform_data_spec [3, 4] 2 (by decide)).2⟩

/-! ## C8 — script segmentation round-trip -/

/-- C8 — parsing the canonical three-marker script yields exactly the
three segments `[Person A, Person B, Both]` with verse lists
`["line1"], ["line2"], ["line3"]`, and padding to five preserves those
three and appends two `"..."` placeholders. -/
theorem canonical_script_roundtrip :
    parse_rap_script "[Person A]\nline1\n[Person B]\nline2\n[Conclusion]\nline3" "" "" =
      [⟨0, .person_a, ["line1"], "line1", false⟩,
       ⟨1, .person_b, ["line2"], "line2", false⟩,
       ⟨2, .both, ["line3"], "line3", true⟩] ∧
    ensure_five_segments
      (parse_rap_script "[Person A]\nline1\n[Person B]\nline2\n[Conclusion]\nline3" "" "") =
      [⟨0, .person_a, ["line1"], "line1", false⟩,
       ⟨1, .person_b, ["line2"], "line2", false⟩,
       ⟨2, .both, ["line3"], "line3", true⟩,
       ⟨3, .person_b, ["..."], "...", false⟩,
       ⟨4, .both, ["..."], "...", true⟩] := by
  constructor
  · decide
  · decide

/-! ## C10 — `stream_progress` on an unknown or cleaned-up battle id -/

/-- C10 — when the queue or the state for `battle_id` is missing (never
created, or already cleaned up), `stream_progress` yields exactly one
event — an error object — and terminates: no snapshot and no heartbeat
is ever emitted, whatever the queue activity would have been.  Cleaning
up a battle puts its id into exactly this situation. -/
theorem stream_progress_missing_spec (reg : Registry) (battle_id : String)
    (trace : List QueueEvent) :
    (reg.queues battle_id = none ∨ reg.battles battle_id = none →
      ∃ msg, stream_progress reg battle_id trace = [.errorEv msg]) ∧
    (∃ msg, stream_progress (cleanup_battle reg battle_id) battle_id trace =
      [.errorEv msg]) := by
  constructor
  · intro h
    rcases h with h | h
    · exact ⟨"Battle not found", by simp [stream_progress, h]⟩
    · cases hq : reg.queues battle_id with
      | none => exact ⟨"Battle not found", by simp [stream_progress, hq]⟩
      | some q => exact ⟨"Battle state not found", by simp [stream_progress, hq, h]⟩
  · exact ⟨"Battle not found", by simp [stream_progress, cleanup_battle]⟩

/-- Witness for C10 on the empty registry. -/
theorem stream_progress_missing_spec_witness :
    ∃ msg, stream_progress ⟨fun _ => none, fun _ => none⟩ "b" [.timeout] =
      [.errorEv msg] :=
  (stream_progress_missing_spec ⟨fun _ => none, fun _ => none⟩ "b" [.timeout]).1
    (Or.inl rfl)

/-! ## Pipeline plumbing lemmas -/

theorem emitU_snaps (u : Update) (s : PipeSt) :
    (emitU u s).snaps = s.snaps ++ [state_to_dict (applyUpdate u s.state)] := rfl

theorem emitU_state (u : Update) (s : PipeSt) :
    (emitU u s).state = applyUpdate u s.state := rfl

theorem state_to_dict_progress (st : BattleState) :
    (state_to_dict st).progress = st.progress := rfl

theorem state_to_dict_stage (st : BattleState) :
    (state_to_dict st).stage = st.stage := rfl

theorem applyUpdate_progress (u : Update) (st : BattleState) :
    (applyUpdate u st).progress = u.progress.getD st.progress := rfl

theorem applyUpdate_stage (u : Update) (st : BattleState) :
    (applyUpdate u st).stage = u.stage.getD st.stage := rfl

theorem setState_snaps (f : BattleState → BattleState) (s : PipeSt) :
    (setState f s).snaps = s.snaps := rfl

/-- Every emit pushes a snapshot whose progress is the freshly stored
progress, so the tracking invariant always holds right after an emit. -/
theorem tracks_emitU (u : Update) (s : PipeSt) : Tracks (emitU u s) := by
  intro sn h
  rw [emitU_snaps, List.getLast?_concat] at h
  cases h
  rfl

/-- The tracking invariant transfers along snapshot- and
progress-preserving rewritings of the state. -/
theorem tracks_of_eq {s s' : PipeSt} (h1 : s'.snaps = s.snaps)
    (h2 : s'.state.progress = s.state.progress) (ht : Tracks s) : Tracks s' := by
  intro sn hl
  rw [h1] at hl
  rw [h2]
  exact ht sn hl

theorem lastD_append {γ : Type} (l₁ l₂ : List γ) (d : γ) :
    lastD (l₁ ++ l₂) d = lastD l₂ (lastD l₁ d) := by
  induction l₁ generalizing d with
  | nil => rfl
  | cons x xs ih => exact ih x

theorem lastD_mem_or {γ : Type} (l : List γ) (d : γ) :
    lastD l d = d ∨ lastD l d ∈ l := by
  induction l generalizing d with
  | nil => exact Or.inl rfl
  | cons x xs ih =>
    rcases ih x with h | h
    · exact Or.inr (by rw [lastD, h]; exact List.mem_cons_self _ _)
    · exact Or.inr (List.mem_cons_of_mem _ h)

theorem chain_append_chain {γ : Type} {R : γ → γ → Prop} {a : γ} {l₁ l₂ : List γ}
    (h₁ : List.Chain R a l₁) (h₂ : List.Chain R (lastD l₁ a) l₂) :
    List.Chain R a (l₁ ++ l₂) := by
  induction l₁ generalizing a with
  | nil => exact h₂
  | cons x xs ih =>
    rcases List.chain_cons.mp h₁ with ⟨hax, hxs⟩
    exact List.chain_cons.mpr ⟨hax, ih hxs h₂⟩

theorem snapProgs_append (l₁ l₂ : List Snapshot) :
    snapProgs (l₁ ++ l₂) = snapProgs l₁ ++ snapProgs l₂ := by
  simp [snapProgs]

theorem mem_allStages (st : BattleStage) : st ∈ allStages := by
  cases st <;> simp [allStages]

/-! ## Generic stage-shape lemmas -/

/-- A stage that unconditionally performs one emit and succeeds. -/
theorem stageSpec_one_emit {α : Type} {f : PipeSt → StepResult (PipeSt × α)}
    {u₁ : Update} {rv : PipeSt → α} {pIn p₁ : ℚ} {stgs : List BattleStage}
    (hshape : ∀ s, f s = .ok (emitU u₁ s, rv s))
    (hp₁ : u₁.progress = some p₁)
    (hc₁ : ProgOk pIn p₁) (hr₁ : progRange p₁)
    (hstg : ∀ st : BattleStage, u₁.stage.getD st ∈ stgs) :
    StageSpec f pIn [p₁] stgs := by
  constructor
  · intro s s' a hp ht h
    rw [hshape s] at h
    injection h with h'
    rw [Prod.mk.injEq] at h'
    obtain ⟨hs', _⟩ := h'
    subst hs'
    refine ⟨[state_to_dict (applyUpdate u₁ s.state)], rfl, ?_, ?_, ?_,
      tracks_emitU _ _, ?_, ?_⟩
    · show List.Chain ProgOk pIn [(state_to_dict (applyUpdate u₁ s.state)).progress]
      rw [state_to_dict_progress, applyUpdate_progress, hp₁]
      exact List.chain_cons.mpr ⟨hc₁, List.Chain.nil⟩
    · intro q hq
      simp only [snapProgs, List.map_cons, List.map_nil, List.mem_singleton] at hq
      rw [hq, state_to_dict_progress, applyUpdate_progress, hp₁]
      exact hr₁
    · intro sn hsn
      rw [List.mem_singleton] at hsn
      rw [hsn, state_to_dict_stage, applyUpdate_stage]
      exact hstg _
    · show (applyUpdate u₁ s.state).progress ∈ [p₁]
      rw [applyUpdate_progress, hp₁]
      exact List.mem_singleton.mpr rfl
    · rfl
  · intro s e s' hp ht h
    rw [hshape s] at h
    exact absurd h (by simp)

/-- A stage of the shape: emit once, run a fallible call, on success
apply a snapshot/progress/stage-preserving state mutation and succeed. -/
theorem stageSpec_emit_modify {α γ : Type} {f : PipeSt → StepResult (PipeSt × α)}
    {u₁ : Update} {md : γ → PipeSt → PipeSt} {rv : γ → α}
    {pIn p₁ : ℚ} {stgs : List BattleStage}
    (hshape : ∀ s, (∃ e, f s = .err e (emitU u₁ s)) ∨
      (∃ v, f s = .ok (md v (emitU u₁ s), rv v)))
    (hm₁ : ∀ v s, (md v s).snaps = s.snaps)
    (hm₂ : ∀ v s, (md v s).state.progress = s.state.progress)
    (hp₁ : u₁.progress = some p₁)
    (hc₁ : ProgOk pIn p₁) (hr₁ : progRange p₁)
    (hstg : ∀ st : BattleStage, u₁.stage.getD st ∈ stgs) :
    StageSpec f pIn [p₁] stgs := by
  have hcommon : ∀ s, s.state.progress = pIn →
      ∃ new, (emitU u₁ s).snaps = s.snaps ++ new ∧
        List.Chain ProgOk pIn (snapProgs new) ∧
        (∀ q ∈ snapProgs new, progRange q) ∧
        (∀ sn ∈ new, sn.stage ∈ stgs) ∧
        lastD (snapProgs new) pIn = p₁ := by
    intro s hp
    refine ⟨[state_to_dict (applyUpdate u₁ s.state)], rfl, ?_, ?_, ?_, ?_⟩
    · show List.Chain ProgOk pIn [(state_to_dict (applyUpdate u₁ s.state)).progress]
      rw [state_to_dict_progress, applyUpdate_progress, hp₁]
      exact List.chain_cons.mpr ⟨hc₁, List.Chain.nil⟩
    · intro q hq
      simp only [snapProgs, List.map_cons, List.map_nil, List.mem_singleton] at hq
      rw [hq, state_to_dict_progress, applyUpdate_progress, hp₁]
      exact hr₁
    · intro sn hsn
      rw [List.mem_singleton] at hsn
      rw [hsn, state_to_dict_stage, applyUpdate_stage]
      exact hstg _
    · show lastD [(state_to_dict (applyUpdate u₁ s.state)).progress] pIn = p₁
      rw [state_to_dict_progress, applyUpdate_progress, hp₁]
      rfl
  have hemit_prog : ∀ s, (emitU u₁ s).state.progress = p₁ := by
    intro s
    rw [emitU_state, applyUpdate_progress, hp₁]
    rfl
  constructor
  · intro s s' a hp ht h
    rcases hshape s with ⟨e, he⟩ | ⟨v, hv⟩
    · rw [he] at h; exact absurd h (by simp)
    · rw [hv] at h
      injection h with h'
      rw [Prod.mk.injEq] at h'
      obtain ⟨hs', _⟩ := h'
      subst hs'
      obtain ⟨new, hsn, hch, hrg, hst, hld⟩ := hcommon s hp
      refine ⟨new, ?_, hch, hrg, hst, ?_, ?_, ?_⟩
      · rw [hm₁, hsn]
      · exact tracks_of_eq (hm₁ v _) (hm₂ v _) (tracks_emitU _ _)
      · rw [hm₂, hemit_prog]
        exact List.mem_singleton.mpr rfl
      · rw [hld, hm₂, hemit_prog]
  · intro s e s' hp ht h
    rcases hshape s with ⟨e₀, he⟩ | ⟨v, hv⟩
    · rw [he] at h
      injection h with he' hs'
      subst he'
      subst hs'
      obtain ⟨new, hsn, hch, hrg, hst, hld⟩ := hcommon s hp
      exact ⟨new, hsn, hch, hrg, hst, tracks_emitU _ _, by rw [hld, hemit_prog]⟩
    · rw [hv] at h; exact absurd h (by simp)

/-- A stage of the shape: emit once, run a fallible call, on success
apply a preserving state mutation and emit a second time. -/
theorem stageSpec_two_emits {α γ : Type} {f : PipeSt → StepResult (PipeSt × α)}
    {u₁ : Update} {u₂ : γ → Update} {md : γ → PipeSt → PipeSt} {rv : γ → α}
    {pIn p₁ p₂ : ℚ} {stgs : List BattleStage}
    (hshape : ∀ s, (∃ e, f s = .err e (emitU u₁ s)) ∨
      (∃ v, f s = .ok (emitU (u₂ v) (md v (emitU u₁ s)), rv v)))
    (hm₁ : ∀ v s, (md v s).snaps = s.snaps)
    (_hm₂ : ∀ v s, (md v s).state.progress = s.state.progress)
    (hm₃ : ∀ v s, (md v s).state.stage = s.state.stage)
    (hp₁ : u₁.progress = some p₁) (hp₂ : ∀ v, (u₂ v).progress = some p₂)
    (hc₁ : ProgOk pIn p₁) (hc₂ : ProgOk p₁ p₂)
    (hr₁ : progRange p₁) (hr₂ : progRange p₂)
    (hstg : ∀ st : BattleStage, u₁.stage.getD st ∈ stgs ∧
      ∀ v, (u₂ v).stage.getD (u₁.stage.getD st) ∈ stgs) :
    StageSpec f pIn [p₂] stgs := by
  constructor
  · intro s s' a hp ht h
    rcases hshape s with ⟨e, he⟩ | ⟨v, hv⟩
    · rw [he] at h; exact absurd h (by simp)
    · rw [hv] at h
      injection h with h'
      rw [Prod.mk.injEq] at h'
      obtain ⟨hs', _⟩ := h'
      subst hs'
      have hd₁p : (state_to_dict (applyUpdate u₁ s.state)).progress = p₁ := by
        rw [state_to_dict_progress, applyUpdate_progress, hp₁]; rfl
      have hd₂st : (applyUpdate (u₂ v) ((md v (emitU u₁ s)).state)).progress = p₂ := by
        rw [applyUpdate_progress, hp₂]; rfl
      refine ⟨[state_to_dict (applyUpdate u₁ s.state),
               state_to_dict (applyUpdate (u₂ v) ((md v (emitU u₁ s)).state))],
        ?_, ?_, ?_, ?_, tracks_emitU _ _, ?_, ?_⟩
      · rw [emitU_snaps, hm₁, emitU_snaps, List.append_assoc]
        rfl
      · show List.Chain ProgOk pIn [_, _]
        rw [state_to_dict_progress, state_to_dict_progress, applyUpdate_progress,
            applyUpdate_progress, hp₁, hp₂]
        exact List.chain_cons.mpr ⟨hc₁, List.chain_cons.mpr ⟨hc₂, List.Chain.nil⟩⟩
      · intro q hq
        simp only [snapProgs, List.map_cons, List.map_nil, List.mem_cons,
          List.mem_singleton] at hq
        rcases hq with hq | hq | hq
        · rw [hq, state_to_dict_progress, applyUpdate_progress, hp₁]; exact hr₁
        · rw [hq, state_to_dict_progress, applyUpdate_progress, hp₂ v]; exact hr₂
        · exact absurd hq (by simp)
      · intro sn hsn
        rcases List.mem_cons.mp hsn with hsn | hsn
        · rw [hsn, state_to_dict_stage, applyUpdate_stage]
          exact (hstg _).1
        · rw [List.mem_singleton] at hsn
          rw [hsn, state_to_dict_stage, applyUpdate_stage, hm₃, emitU_state,
              applyUpdate_stage]
          exact (hstg _).2 v
      · show (applyUpdate (u₂ v) ((md v (emitU u₁ s)).state)).progress ∈ [p₂]
        rw [hd₂st]
        exact List.mem_singleton.mpr rfl
      · show lastD (snapProgs [_, _]) pIn =
          (applyUpdate (u₂ v) ((md v (emitU u₁ s)).state)).progress
        rw [hd₂st]
        simp only [snapProgs, List.map_cons, List.map_nil, lastD]
        rw [state_to_dict_progress, applyUpdate_progress, hp₂]
        rfl
  · intro s e s' hp ht h
    rcases hshape s with ⟨e₀, he⟩ | ⟨v, hv⟩
    · rw [he] at h
      injection h with he' hs'
      subst he'
      subst hs'
      refine ⟨[state_to_dict (applyUpdate u₁ s.state)], rfl, ?_, ?_, ?_,
        tracks_emitU _ _, ?_⟩
      · show List.Chain ProgOk pIn [(state_to_dict (applyUpdate u₁ s.state)).progress]
        rw [state_to_dict_progress, applyUpdate_progress, hp₁]
        exact List.chain_cons.mpr ⟨hc₁, List.Chain.nil⟩
      · intro q hq
        simp only [snapProgs, List.map_cons, List.map_nil, List.mem_singleton] at hq
        rw [hq, state_to_dict_progress, applyUpdate_progress, hp₁]
        exact hr₁
      · intro sn hsn
        rw [List.mem_singleton] at hsn
        rw [hsn, state_to_dict_stage, applyUpdate_stage]
        exact (hstg _).1
      · rfl
    · rw [hv] at h; exact absurd h (by simp)

/-- Weakening of a stage contract. -/
theorem stageSpec_mono {α : Type} {f : PipeSt → StepResult (PipeSt × α)}
    {pIn : ℚ} {outs outs' : List ℚ} {stgs stgs' : List BattleStage}
    (h : StageSpec f pIn outs stgs)
    (ho : ∀ q ∈ outs, q ∈ outs') (hs : ∀ g ∈ stgs, g ∈ stgs') :
    StageSpec f pIn outs' stgs' := by
  constructor
  · intro s s' a hp ht hf
    obtain ⟨new, h1, h2, h3, h4, h5, h6, h7⟩ := h.ok s s' a hp ht hf
    exact ⟨new, h1, h2, h3, fun sn hsn => hs _ (h4 sn hsn), h5, ho _ h6, h7⟩
  · intro s e s' hp ht hf
    obtain ⟨new, h1, h2, h3, h4, h5, h6⟩ := h.err s e s' hp ht hf
    exact ⟨new, h1, h2, h3, fun sn hsn => hs _ (h4 sn hsn), h5, h6⟩

/-- The no-op stage. -/
theorem stageSpec_id (p : ℚ) (stgs : List BattleStage) :
    StageSpec (fun s => StepResult.ok (s, ())) p [p] stgs := by
  constructor
  · intro s s' a hp ht h
    injection h with h'
    rw [Prod.mk.injEq] at h'
    obtain ⟨hs', _⟩ := h'
    subst hs'
    exact ⟨[], by simp, List.Chain.nil, by simp [snapProgs], by simp, ht,
      by rw [hp]; exact List.mem_singleton.mpr rfl, hp.symm⟩
  · intro s e s' hp ht h
    exact absurd h (by simp)

/-- Sequencing two stage contracts. -/
theorem stageSpec_seq {α β : Type} {f : PipeSt → StepResult (PipeSt × α)}
    {g : α → PipeSt → StepResult (PipeSt × β)} {p : ℚ} {outs outs' : List ℚ}
    {stgs stgs' : List BattleStage}
    (hf : StageSpec f p outs stgs)
    (hg : ∀ a q, q ∈ outs → StageSpec (g a) q outs' stgs') :
    StageSpec (seqSt f g) p outs' (stgs ++ stgs') := by
  constructor
  · intro s s'' b hp ht h
    unfold seqSt at h
    cases hf1 : f s with
    | err e s₁ => rw [hf1] at h; exact absurd h (by simp)
    | ok pr =>
      obtain ⟨s₁, a⟩ := pr
      rw [hf1] at h
      obtain ⟨n₁, hsn₁, hch₁, hrg₁, hst₁, htr₁, hpo₁, hld₁⟩ := hf.ok s s₁ a hp ht hf1
      obtain ⟨n₂, hsn₂, hch₂, hrg₂, hst₂, htr₂, hpo₂, hld₂⟩ :=
        (hg a s₁.state.progress hpo₁).ok s₁ s'' b rfl htr₁ h
      refine ⟨n₁ ++ n₂, ?_, ?_, ?_, ?_, htr₂, hpo₂, ?_⟩
      · rw [hsn₂, hsn₁, List.append_assoc]
      · rw [snapProgs_append]
        exact chain_append_chain hch₁ (by rw [hld₁]; exact hch₂)
      · intro q hq
        rw [snapProgs_append, List.mem_append] at hq
        rcases hq with hq | hq
        · exact hrg₁ q hq
        · exact hrg₂ q hq
      · intro sn hsn
        rcases List.mem_append.mp hsn with hsn | hsn
        · exact List.mem_append_left _ (hst₁ sn hsn)
        · exact List.mem_append_right _ (hst₂ sn hsn)
      · rw [snapProgs_append, lastD_append, hld₁]
        exact hld₂
  · intro s e s'' hp ht h
    unfold seqSt at h
    cases hf1 : f s with
    | err e₀ s₁ =>
      rw [hf1] at h
      injection h with he' hs'
      rw [he', hs'] at hf1
      obtain ⟨n₁, hsn₁, hch₁, hrg₁, hst₁, htr₁, hld₁⟩ := hf.err s e s'' hp ht hf1
      exact ⟨n₁, hsn₁, hch₁, hrg₁,
        fun sn hsn => List.mem_append_left _ (hst₁ sn hsn), htr₁, hld₁⟩
    | ok pr =>
      obtain ⟨s₁, a⟩ := pr
      rw [hf1] at h
      obtain ⟨n₁, hsn₁, hch₁, hrg₁, hst₁, htr₁, hpo₁, hld₁⟩ := hf.ok s s₁ a hp ht hf1
      obtain ⟨n₂, hsn₂, hch₂, hrg₂, hst₂, htr₂, hld₂⟩ :=
        (hg a s₁.state.progress hpo₁).err s₁ e s'' rfl htr₁ h
      refine ⟨n₁ ++ n₂, ?_, ?_, ?_, ?_, htr₂, ?_⟩
      · rw [hsn₂, hsn₁, List.append_assoc]
      · rw [snapProgs_append]
        exact chain_append_chain hch₁ (by rw [hld₁]; exact hch₂)
      · intro q hq
        rw [snapProgs_append, List.mem_append] at hq
        rcases hq with hq | hq
        · exact hrg₁ q hq
        · exact hrg₂ q hq
      · intro sn hsn
        rcases List.mem_append.mp hsn with hsn | hsn
        · exact List.mem_append_left _ (hst₁ sn hsn)
        · exact List.mem_append_right _ (hst₂ sn hsn)
      · rw [snapProgs_append, lastD_append, hld₁]
        exact hld₂

/-! ## Stage contracts for the concrete pipeline stages -/

theorem spec_stParsing : StageSpec stParsing 0 [2] [.parsing] :=
  @stageSpec_one_emit Unit stParsing updParsing (fun _ => ()) 0 2 [.parsing]
    (fun _ => rfl) rfl (Or.inl (by norm_num)) ⟨by norm_num, by norm_num⟩
    (fun st => by simp [updParsing])

theorem spec_stStyleRefA (env : Env) (cfg : BattleConfig) :
    StageSpec (stStyleRefA env cfg) 2 [10] [.style_ref_a] := by
  refine @stageSpec_two_emits (Option String) (Option String) (stStyleRefA env cfg)
    (updStyleRefA cfg) (fun _ => updStyleRefADone cfg) (fun _ s => s) (fun r => r)
    2 4 10 [.style_ref_a] ?_ (fun _ _ => rfl) (fun _ _ => rfl) (fun _ _ => rfl)
    rfl (fun _ => rfl) (Or.inl (by norm_num)) (Or.inl (by norm_num))
    ⟨by norm_num, by norm_num⟩ ⟨by norm_num, by norm_num⟩ ?_
  · intro s
    cases hres : resolveStyleRef env.create_style_reference_a
        cfg.fighter_a_voice_path (get_preset_path cfg.fighter_a_style) with
    | error e => exact Or.inl ⟨e, by simp [stStyleRefA, hres]⟩
    | ok r => exact Or.inr ⟨r, by simp [stStyleRefA, hres]⟩
  · intro st
    exact ⟨by simp [updStyleRefA], fun v => by simp [updStyleRefA, updStyleRefADone]⟩

theorem spec_stStyleRefB (env : Env) (cfg : BattleConfig) :
    StageSpec (stStyleRefB env cfg) 10 [18] [.style_ref_b] := by
  refine @stageSpec_two_emits (Option String) (Option String) (stStyleRefB env cfg)
    (updStyleRefB cfg) (fun _ => updStyleRefBDone cfg) (fun _ s => s) (fun r => r)
    10 12 18 [.style_ref_b] ?_ (fun _ _ => rfl) (fun _ _ => rfl) (fun _ _ => rfl)
    rfl (fun _ => rfl) (Or.inl (by norm_num)) (Or.inl (by norm_num))
    ⟨by norm_num, by norm_num⟩ ⟨by norm_num, by norm_num⟩ ?_
  · intro s
    cases hres : resolveStyleRef env.create_style_reference_b
        cfg.fighter_b_voice_path (get_preset_path cfg.fighter_b_style) with
    | error e => exact Or.inl ⟨e, by simp [stStyleRefB, hres]⟩
    | ok r => exact Or.inr ⟨r, by simp [stStyleRefB, hres]⟩
  · intro st
    exact ⟨by simp [updStyleRefB], fun v => by simp [updStyleRefB, updStyleRefBDone]⟩

theorem spec_stVoiceA (env : Env) (cfg : BattleConfig) (r : Option String) :
    StageSpec (stVoiceA env cfg r) 18 [26] [.voice_a] := by
  refine @stageSpec_two_emits String String (stVoiceA env cfg r)
    (updVoiceA cfg) (fun _ => updVoiceADone cfg) (fun _ s => s) (fun a => a)
    18 20 26 [.voice_a] ?_ (fun _ _ => rfl) (fun _ _ => rfl) (fun _ _ => rfl)
    rfl (fun _ => rfl) (Or.inl (by norm_num)) (Or.inl (by norm_num))
    ⟨by norm_num, by norm_num⟩ ⟨by norm_num, by norm_num⟩ ?_
  · intro s
    cases henv : env.generate_rap_voice_a with
    | error e => exact Or.inl ⟨e, by simp [stVoiceA, henv]⟩
    | ok pr =>
      obtain ⟨oa, stat⟩ := pr
      by_cases hoa : optTruthy oa
      · exact Or.inr ⟨oa.getD "", by simp [stVoiceA, henv, hoa]⟩
      · exact Or.inl ⟨"Failed to generate voice for " ++ cfg.fighter_a_name
          ++ ": " ++ stat, by simp [stVoiceA, henv, hoa]⟩
  · intro st
    exact ⟨by simp [updVoiceA], fun v => by simp [updVoiceA, updVoiceADone]⟩

theorem spec_stVoiceB (env : Env) (cfg : BattleConfig) (audio_a : String)
    (r : Option String) :
    StageSpec (stVoiceB env cfg audio_a r) 26 [34] [.voice_b] := by
  refine @stageSpec_two_emits String String (stVoiceB env cfg audio_a r)
    (updVoiceB cfg) (fun _ => updVoiceBDone cfg)
    (fun v s => setState (fun st => { st with audio_clips := [audio_a, v] }) s)
    (fun a => a) 26 28 34 [.voice_b] ?_ (fun _ _ => rfl) (fun _ _ => rfl)
    (fun _ _ => rfl) rfl (fun _ => rfl) (Or.inl (by norm_num)) (Or.inl (by norm_num))
    ⟨by norm_num, by norm_num⟩ ⟨by norm_num, by norm_num⟩ ?_
  · intro s
    cases henv : env.generate_rap_voice_b with
    | error e => exact Or.inl ⟨e, by simp [stVoiceB, henv]⟩
    | ok pr =>
      obtain ⟨ob, stat⟩ := pr
      by_cases hob : optTruthy ob
      · exact Or.inr ⟨ob.getD "", by simp [stVoiceB, henv, hob]⟩
      · exact Or.inl ⟨"Failed to generate voice for " ++ cfg.fighter_b_name
          ++ ": " ++ stat, by simp [stVoiceB, henv, hob]⟩
  · intro st
    exact ⟨by simp [updVoiceB], fun v => by simp [updVoiceB, updVoiceBDone]⟩

theorem spec_stBpmDetect (env : Env) :
    StageSpec (stBpmDetect env) 34 [32] [.bpm_detect] := by
  refine @stageSpec_two_emits ℚ ℚ (stBpmDetect env)
    updBpm (fun v => updBpmDone v)
    (fun v s => setState (fun st => { st with detected_bpm := some v }) s)
    (fun v => v) 34 30 32 [.bpm_detect] ?_ (fun _ _ => rfl) (fun _ _ => rfl)
    (fun _ _ => rfl) rfl (fun _ => rfl) (Or.inr ⟨rfl, rfl⟩) (Or.inl (by norm_num))
    ⟨by norm_num, by norm_num⟩ ⟨by norm_num, by norm_num⟩ ?_
  · intro s
    exact Or.inr ⟨snap_bpm_to_common
      (detect_bpm_from_multiple env.audio (emitU updBpm s).state.audio_clips), rfl⟩
  · intro st
    exact ⟨by simp [updBpm], fun v => by simp [updBpm, updBpmDone]⟩

theorem spec_stBeatGen (env : Env) (cfg : BattleConfig) (t : ℚ) :
    StageSpec (stBeatGen env cfg t) 32 [42] [.beat_gen] := by
  refine @stageSpec_two_emits String String (stBeatGen env cfg t)
    (updBeatGen cfg t) (fun _ => updBeatDone)
    (fun v s => setState (fun st => { st with beat_path := some v }) s)
    (fun a => a) 32 35 42 [.beat_gen] ?_ (fun _ _ => rfl) (fun _ _ => rfl)
    (fun _ _ => rfl) rfl (fun _ => rfl) (Or.inl (by norm_num)) (Or.inl (by norm_num))
    ⟨by norm_num, by norm_num⟩ ⟨by norm_num, by norm_num⟩ ?_
  · intro s
    cases hbp : env.generate_beat_pattern_r with
    | error e => exact Or.inl ⟨e, by simp [stBeatGen, hbp]⟩
    | ok pr =>
      obtain ⟨bj, bs⟩ := pr
      by_cases hbj : optTruthy bj
      · cases hfj : env.generate_from_json_r with
        | error e => exact Or.inl ⟨e, by simp [stBeatGen, hbp, hbj, hfj]⟩
        | ok bp => exact Or.inr ⟨bp, by simp [stBeatGen, hbp, hbj, hfj]⟩
      · exact Or.inl ⟨"Failed to generate beat pattern: " ++ bs,
          by simp [stBeatGen, hbp, hbj]⟩
  · intro st
    exact ⟨by simp [updBeatGen], fun v => by simp [updBeatGen, updBeatDone]⟩

theorem spec_stMixing (env : Env) (bid : String) (bp : String) :
    StageSpec (stMixing env bid bp) 42 [50] [.mixing] := by
  refine @stageSpec_two_emits String (List ℤ) (stMixing env bid bp)
    updMixing (fun _ => updMixDone ("/outputs/" ++ audioFilename bid))
    (fun _ s => setState (fun st =>
      { st with mixed_audio_path := some ("outputs/" ++ audioFilename bid) }) s)
    (fun _ => "/outputs/" ++ audioFilename bid) 42 45 50 [.mixing] ?_
    (fun _ _ => rfl) (fun _ _ => rfl) (fun _ _ => rfl) rfl (fun _ => rfl)
    (Or.inl (by norm_num)) (Or.inl (by norm_num))
    ⟨by norm_num, by norm_num⟩ ⟨by norm_num, by norm_num⟩ ?_
  · intro s
    cases hmix : mix_rap_and_beat env.mixfs (emitU updMixing s).state.audio_clips bp with
    | error e => exact Or.inl ⟨e, by simp [stMixing, hmix]⟩
    | ok m => exact Or.inr ⟨m, by simp [stMixing, hmix]⟩
  · intro st
    exact ⟨by simp [updMixing], fun v => by simp [updMixing, updMixDone]⟩

/-- Shape of the talking-head stage: skipped entirely (no image given),
finished normally after the single 52 % emit, or raised after that emit. -/
theorem stTalkhead_shape (env : Env) (cfg : BattleConfig) (s : PipeSt) :
    stTalkhead env cfg s = .ok (s, (none, none)) ∨
    (∃ a, stTalkhead env cfg s = .ok (emitU updTalkhead s, a)) ∨
    (∃ e, stTalkhead env cfg s = .err e (emitU updTalkhead s)) := by
  by_cases hc : (optTruthy cfg.fighter_a_image_path
      || optTruthy cfg.fighter_b_image_path) = true
  · cases hA : (if optTruthy cfg.fighter_a_image_path then env.generate_video_a
        else Except.ok (none, "No image") : Except String (Option String × String)) with
    | error e => exact Or.inr (Or.inr ⟨e, by simp [stTalkhead, hc, hA]⟩)
    | ok pa =>
      obtain ⟨va, sa⟩ := pa
      cases hB : (if optTruthy cfg.fighter_b_image_path then env.generate_video_b
          else Except.ok (none, "No image") : Except String (Option String × String)) with
      | error e => exact Or.inr (Or.inr ⟨e, by simp [stTalkhead, hc, hA, hB]⟩)
      | ok pb =>
        obtain ⟨vb, sb⟩ := pb
        exact Or.inr (Or.inl ⟨(va, vb), by simp [stTalkhead, hc, hA, hB]⟩)
  · exact Or.inl (by simp [stTalkhead, hc])

theorem spec_stTalkhead (env : Env) (cfg : BattleConfig) :
    StageSpec (stTalkhead env cfg) 50 [50, 52] [.talkhead] := by
  have h52 : ∀ s : PipeSt,
      (state_to_dict (applyUpdate updTalkhead s.state)).progress = 52 := fun _ => rfl
  have hstg : ∀ s : PipeSt,
      (state_to_dict (applyUpdate updTalkhead s.state)).stage = .talkhead := fun _ => rfl
  have hone : ∀ s : PipeSt,
      List.Chain ProgOk 50 (snapProgs [state_to_dict (applyUpdate updTalkhead s.state)]) ∧
      (∀ q ∈ snapProgs [state_to_dict (applyUpdate updTalkhead s.state)], progRange q) ∧
      (∀ sn ∈ [state_to_dict (applyUpdate updTalkhead s.state)],
        sn.stage ∈ [BattleStage.talkhead]) := by
    intro s
    refine ⟨?_, ?_, ?_⟩
    · show List.Chain ProgOk 50 [(state_to_dict (applyUpdate updTalkhead s.state)).progress]
      rw [h52]
      exact List.chain_cons.mpr ⟨Or.inl (by norm_num), List.Chain.nil⟩
    · intro q hq
      simp only [snapProgs, List.map_cons, List.map_nil, List.mem_singleton] at hq
      rw [hq, h52]
      exact ⟨by norm_num, by norm_num⟩
    · intro sn hsn
      rw [List.mem_singleton] at hsn
      rw [hsn, hstg]
      simp
  constructor
  · intro s s' a hp ht h
    rcases stTalkhead_shape env cfg s with h0 | ⟨a', hok⟩ | ⟨e, herr⟩
    · rw [h0] at h
      injection h with h'
      rw [Prod.mk.injEq] at h'
      obtain ⟨hs', -⟩ := h'
      subst hs'
      exact ⟨[], by simp, List.Chain.nil, by simp [snapProgs], by simp, ht,
        by rw [hp]; simp, hp.symm⟩
    · rw [hok] at h
      injection h with h'
      rw [Prod.mk.injEq] at h'
      obtain ⟨hs', -⟩ := h'
      subst hs'
      obtain ⟨hch, hrg, hst⟩ := hone s
      exact ⟨[state_to_dict (applyUpdate updTalkhead s.state)], rfl, hch, hrg, hst,
        tracks_emitU _ _, by show (52 : ℚ) ∈ [50, 52]; simp, rfl⟩
    · rw [herr] at h
      exact absurd h (by simp)
  · intro s e s' hp ht h
    rcases stTalkhead_shape env cfg s with h0 | ⟨a', hok⟩ | ⟨e', herr⟩
    · rw [h0] at h
      exact absurd h (by simp)
    · rw [hok] at h
      exact absurd h (by simp)
    · rw [herr] at h
      injection h with he hs
      subst hs
      obtain ⟨hch, hrg, hst⟩ := hone s
      exact ⟨[state_to_dict (applyUpdate updTalkhead s.state)], rfl, hch, hrg, hst,
        tracks_emitU _ _, rfl⟩

/-- Shape of the lip-sync stage: skipped entirely (no base video),
finished normally after the single 65 % emit (possibly storing the clip
paths, which changes neither the snapshots nor the progress), or raised
after that emit. -/
theorem stLipsyncHeads_shape (env : Env) (ba bb : Option String) (s : PipeSt) :
    stLipsyncHeads env ba bb s = .ok (s, ()) ∨
    (∃ s₂, stLipsyncHeads env ba bb s = .ok (s₂, ()) ∧
      s₂.snaps = (emitU updLipsync s).snaps ∧
      s₂.state.progress = (emitU updLipsync s).state.progress) ∨
    (∃ e, stLipsyncHeads env ba bb s = .err e (emitU updLipsync s)) := by
  by_cases hc : (optTruthy ba || optTruthy bb) = true
  · cases hA : lipsyncClosure ba env.upload_video_a env.upload_audio_a
        env.lipsync_call_a with
    | error e => exact Or.inr (Or.inr ⟨e, by simp [stLipsyncHeads, hc, hA]⟩)
    | ok pa =>
      obtain ⟨tha, sa⟩ := pa
      cases hB : lipsyncClosure bb env.upload_video_b env.upload_audio_b
          env.lipsync_call_b with
      | error e => exact Or.inr (Or.inr ⟨e, by simp [stLipsyncHeads, hc, hA, hB]⟩)
      | ok pb =>
        obtain ⟨thb, sb⟩ := pb
        by_cases h1 : optTruthy tha = true <;> by_cases h2 : optTruthy thb = true
        · exact Or.inr (Or.inl ⟨setState (fun st => { st with talking_head_b := thb })
            (setState (fun st => { st with talking_head_a := tha })
              (emitU updLipsync s)),
            by simp [stLipsyncHeads, hc, hA, hB, h1, h2], rfl, rfl⟩)
        · exact Or.inr (Or.inl ⟨setState (fun st => { st with talking_head_a := tha })
            (emitU updLipsync s),
            by simp [stLipsyncHeads, hc, hA, hB, h1, h2], rfl, rfl⟩)
        · exact Or.inr (Or.inl ⟨setState (fun st => { st with talking_head_b := thb })
            (emitU updLipsync s),
            by simp [stLipsyncHeads, hc, hA, hB, h1, h2], rfl, rfl⟩)
        · exact Or.inr (Or.inl ⟨emitU updLipsync s,
            by simp [stLipsyncHeads, hc, hA, hB, h1, h2], rfl, rfl⟩)
  · exact Or.inl (by simp [stLipsyncHeads, hc])

theorem spec_stLipsyncHeads (env : Env) (ba bb : Option String) (q : ℚ)
    (hq : q ≤ 65) :
    StageSpec (stLipsyncHeads env ba bb) q [q, 65] [.lipsync_heads] := by
  have h65 : ∀ s : PipeSt,
      (state_to_dict (applyUpdate updLipsync s.state)).progress = 65 := fun _ => rfl
  have hstg : ∀ s : PipeSt,
      (state_to_dict (applyUpdate updLipsync s.state)).stage = .lipsync_heads :=
    fun _ => rfl
  have hone : ∀ s : PipeSt,
      List.Chain ProgOk q (snapProgs [state_to_dict (applyUpdate updLipsync s.state)]) ∧
      (∀ p ∈ snapProgs [state_to_dict (applyUpdate updLipsync s.state)], progRange p) ∧
      (∀ sn ∈ [state_to_dict (applyUpdate updLipsync s.state)],
        sn.stage ∈ [BattleStage.lipsync_heads]) := by
    intro s
    refine ⟨?_, ?_, ?_⟩
    · show List.Chain ProgOk q [(state_to_dict (applyUpdate updLipsync s.state)).progress]
      rw [h65]
      exact List.chain_cons.mpr ⟨Or.inl hq, List.Chain.nil⟩
    · intro p hp
      simp only [snapProgs, List.map_cons, List.map_nil, List.mem_singleton] at hp
      rw [hp, h65]
      exact ⟨by norm_num, by norm_num⟩
    · intro sn hsn
      rw [List.mem_singleton] at hsn
      rw [hsn, hstg]
      simp
  constructor
  · intro s s' a hp ht h
    rcases stLipsyncHeads_shape env ba bb s with h0 | ⟨s₂, hok, hsn2, hpr2⟩ | ⟨e, herr⟩
    · rw [h0] at h
      injection h with h'
      rw [Prod.mk.injEq] at h'
      obtain ⟨hs', -⟩ := h'
      subst hs'
      exact ⟨[], by simp, List.Chain.nil, by simp [snapProgs], by simp, ht,
        by rw [hp]; simp, hp.symm⟩
    · rw [hok] at h
      injection h with h'
      rw [Prod.mk.injEq] at h'
      obtain ⟨hs', -⟩ := h'
      subst hs'
      obtain ⟨hch, hrg, hst⟩ := hone s
      refine ⟨[state_to_dict (applyUpdate updLipsync s.state)], ?_, hch, hrg, hst,
        ?_, ?_, ?_⟩
      · rw [hsn2]; rfl
      · exact tracks_of_eq hsn2 hpr2 (tracks_emitU _ _)
      · rw [hpr2]
        show (65 : ℚ) ∈ [q, 65]
        simp
      · rw [hpr2]
        rfl
    · rw [herr] at h
      exact absurd h (by simp)
  · intro s e s' hp ht h
    rcases stLipsyncHeads_shape env ba bb s with h0 | ⟨s₂, hok, hsn2, hpr2⟩ | ⟨e', herr⟩
    · rw [h0] at h
      exact absurd h (by simp)
    · rw [hok] at h
      exact absurd h (by simp)
    · rw [herr] at h
      injection h with he hs
      subst hs
      obtain ⟨hch, hrg, hst⟩ := hone s
      exact ⟨[state_to_dict (applyUpdate updLipsync s.state)], rfl, hch, hrg, hst,
        tracks_emitU _ _, rfl⟩

theorem spec_stWaveform (env : Env) (q : ℚ) (hq : q ≤ 80) :
    StageSpec (stWaveform env) q [80] allStages := by
  refine @stageSpec_emit_modify Unit (List ℚ) (stWaveform env) updArenaData
    (fun v s => setState (fun st => { st with waveform := generate_waveform_data v 100 }) s)
    (fun _ => ()) q 80 allStages ?_ (fun _ _ => rfl) (fun _ _ => rfl) rfl
    (Or.inl hq) ⟨by norm_num, by norm_num⟩ (fun st => mem_allStages _)
  intro s
  cases hms : env.mixed_samples with
  | error e => exact Or.inl ⟨e, by simp [stWaveform, hms]⟩
  | ok samples => exact Or.inr ⟨samples, by simp [stWaveform, hms]⟩

theorem spec_stFinish (env : Env) (url : String) :
    StageSpec (stFinish env url) 80 [100] allStages := by
  refine @stageSpec_two_emits Unit TimingData (stFinish env url)
    updAlign (fun _ => updComplete url)
    (fun v s => setState (fun st => { st with timing_data := some v }) s)
    (fun _ => ()) 80 90 100 allStages ?_ (fun _ _ => rfl) (fun _ _ => rfl)
    (fun _ _ => rfl) rfl (fun _ => rfl) (Or.inl (by norm_num)) (Or.inl (by norm_num))
    ⟨by norm_num, by norm_num⟩ ⟨by norm_num, by norm_num⟩
    (fun st => ⟨mem_allStages _, fun v => mem_allStages _⟩)
  intro s
  cases hav : env.align_verses_r with
  | error e => exact Or.inl ⟨e, by simp [stFinish, hav]⟩
  | ok td => exact Or.inr ⟨td, by simp [stFinish, hav]⟩

theorem spec_stArena (env : Env) (cfg : BattleConfig) (url : String) :
    StageSpec (stArena env cfg url) 50 [100] allStages := by
  have h4 : ∀ (_ : Unit) (p : ℚ), p ∈ ([80] : List ℚ) →
      StageSpec (stFinish env url) p [100] allStages := by
    intro _ p hp
    rw [List.mem_singleton] at hp
    subst hp
    exact spec_stFinish env url
  have h3 : ∀ (_ : Unit) (p : ℚ), p ∈ ([50, 52, 65] : List ℚ) →
      StageSpec (seqSt (stWaveform env) (fun _ => stFinish env url)) p [100] allStages := by
    intro a p hp
    have hple : p ≤ 80 := by
      simp only [List.mem_cons, List.not_mem_nil, or_false] at hp
      rcases hp with rfl | rfl | rfl <;> norm_num
    exact stageSpec_mono (stageSpec_seq (spec_stWaveform env p hple) h4)
      (fun x hx => hx) (fun g _ => mem_allStages g)
  have h2 : ∀ (bases : Option String × Option String) (p : ℚ),
      p ∈ ([50, 52] : List ℚ) →
      StageSpec (seqSt (stLipsyncHeads env bases.1 bases.2)
        (fun _ => seqSt (stWaveform env) (fun _ => stFinish env url))) p [100] allStages := by
    intro bases p hp
    have hple : p ≤ 65 := by
      simp only [List.mem_cons, List.not_mem_nil, or_false] at hp
      rcases hp with rfl | rfl <;> norm_num
    refine stageSpec_mono (stageSpec_seq (spec_stLipsyncHeads env bases.1 bases.2 p hple)
      (fun a p' hp' => h3 a p' ?_)) (fun x hx => hx) (fun g _ => mem_allStages g)
    simp only [List.mem_cons, List.not_mem_nil, or_false] at hp hp' ⊢
    rcases hp' with rfl | rfl
    · rcases hp with rfl | rfl
      · exact Or.inl rfl
      · exact Or.inr (Or.inl rfl)
    · exact Or.inr (Or.inr rfl)
  exact stageSpec_mono (stageSpec_seq (spec_stTalkhead env cfg) h2)
    (fun x hx => hx) (fun g _ => mem_allStages g)

theorem spec_branch (env : Env) (cfg : BattleConfig) (url : String) :
    StageSpec (fun s => if cfg.audio_only then stArena env cfg url s
      else StepResult.ok (s, ())) 50 [50, 100] allStages := by
  by_cases hao : cfg.audio_only
  · have hfe : (fun s => if cfg.audio_only then stArena env cfg url s
        else StepResult.ok (s, ())) = fun s => stArena env cfg url s := by
      funext s
      rw [if_pos hao]
    rw [hfe]
    refine stageSpec_mono (spec_stArena env cfg url) ?_ (fun g hg => hg)
    intro x hx
    rw [List.mem_singleton] at hx
    subst hx
    simp
  · have hfe : (fun s => if cfg.audio_only then stArena env cfg url s
        else StepResult.ok (s, ())) = fun s => StepResult.ok (s, ()) := by
      funext s
      rw [if_neg hao]
    rw [hfe]
    refine stageSpec_mono (stageSpec_id 50 allStages) ?_ (fun g hg => hg)
    intro x hx
    rw [List.mem_singleton] at hx
    subst hx
    simp

theorem spec_runRest (env : Env) (cfg : BattleConfig) (bid : String) :
    StageSpec (runRest env cfg bid) 2 [50, 100] allStages := by
  have H : StageSpec (runRest env cfg bid) 2 [50, 100]
      ([BattleStage.style_ref_a] ++ ([.style_ref_b] ++ ([.voice_a] ++ ([.voice_b] ++
        ([.bpm_detect] ++ ([.beat_gen] ++ ([.mixing] ++ allStages))))))) := by
    apply stageSpec_seq (spec_stStyleRefA env cfg)
    intro refA p hp
    rw [List.mem_singleton] at hp
    subst hp
    apply stageSpec_seq (spec_stStyleRefB env cfg)
    intro refB p hp
    rw [List.mem_singleton] at hp
    subst hp
    apply stageSpec_seq (spec_stVoiceA env cfg refA)
    intro audio_a p hp
    rw [List.mem_singleton] at hp
    subst hp
    apply stageSpec_seq (spec_stVoiceB env cfg audio_a refB)
    intro _audio_b p hp
    rw [List.mem_singleton] at hp
    subst hp
    apply stageSpec_seq (spec_stBpmDetect env)
    intro target p hp
    rw [List.mem_singleton] at hp
    subst hp
    apply stageSpec_seq (spec_stBeatGen env cfg target)
    intro bp p hp
    rw [List.mem_singleton] at hp
    subst hp
    apply stageSpec_seq (spec_stMixing env bid bp)
    intro url p hp
    rw [List.mem_singleton] at hp
    subst hp
    exact spec_branch env cfg url
  exact stageSpec_mono H (fun x hx => hx) (fun g _ => mem_allStages g)

theorem spec_runBody (env : Env) (cfg : BattleConfig) (bid : String) :
    StageSpec (runBody env cfg bid) 0 [50, 100] allStages := by
  have H := stageSpec_seq spec_stParsing
    (fun (_ : Unit) p hp => by
      rw [List.mem_singleton] at hp
      subst hp
      exact spec_runRest env cfg bid)
  exact stageSpec_mono H (fun x hx => hx) (fun g _ => mem_allStages g)

/-! ## Plumbing for the whole-run claims -/

/-- Unfold one successful step of a sequenced pipeline fragment. -/
theorem seqSt_ok {α β : Type} {f : PipeSt → StepResult (PipeSt × α)}
    {g : α → PipeSt → StepResult (PipeSt × β)} {s s' : PipeSt} {a : α}
    (h : f s = .ok (s', a)) : seqSt f g s = g a s' := by
  simp [seqSt, h]

/-- A raised step short-circuits the rest of the sequence. -/
theorem seqSt_err {α β : Type} {f : PipeSt → StepResult (PipeSt × α)}
    {g : α → PipeSt → StepResult (PipeSt × β)} {s s' : PipeSt} {e : String}
    (h : f s = .err e s') : seqSt f g s = .err e s' := by
  simp [seqSt, h]

/-- A snapshot property survives an emit whenever the freshly pushed
snapshot also has it. -/
theorem mem_snaps_emitU {P : Snapshot → Prop} {u : Update} {s : PipeSt}
    (hs : ∀ sn ∈ s.snaps, P sn)
    (hu : P (state_to_dict (applyUpdate u s.state))) :
    ∀ sn ∈ (emitU u s).snaps, P sn := by
  intro sn hsn
  rw [emitU_snaps] at hsn
  rcases List.mem_append.mp hsn with h | h
  · exact hs sn h
  · rw [List.mem_singleton] at h
    rw [h]
    exact hu

/-- A nonempty list has a last element. -/
theorem getLast?_of_ne_nil {γ : Type} :
    ∀ l : List γ, l ≠ [] → ∃ x, l.getLast? = some x := by
  intro l
  induction l with
  | nil => intro h; exact absurd rfl h
  | cons a as ih =>
    intro _
    cases as with
    | nil => exact ⟨a, rfl⟩
    | cons b bs =>
      obtain ⟨x, hx2⟩ := ih (List.cons_ne_nil b bs)
      exact ⟨x, by rw [List.getLast?_cons_cons]; exact hx2⟩

/-- A successful `List.lookup` returns one of the stored values. -/
theorem lookup_mem_snd {k v : String} :
    ∀ l : List (String × String), l.lookup k = some v → v ∈ l.map Prod.snd := by
  intro l
  induction l with
  | nil => intro h; simp [List.lookup] at h
  | cons x xs ih =>
    intro h
    obtain ⟨a, b⟩ := x
    simp only [List.lookup] at h
    split at h
    · injection h with h'
      subst h'
      simp
    · simp only [List.map_cons, List.mem_cons]
      exact Or.inr (ih h)

/-! ## C7 — progress monotonicity -/

/-- C7 counterexample: with every external call succeeding (`envOK`,
`cfgW`), the emitted progress sequence is
2, 4, 10, 12, 18, 20, 26, 28, **34, 30**, 32, 35, 42, 45, 50, 80, 90,
100 — the BPM_DETECT entry emit drops from 34 back to 30, so the
snapshot progress stream is not monotonically non-decreasing. -/
theorem run_progress_monotone_counterexample :
    snapProgs (run_full_pipeline envOK cfgW "b1").snaps =
      [2, 4, 10, 12, 18, 20, 26, 28, 34, 30, 32, 35, 42, 45, 50, 80, 90, 100] ∧
    ¬ List.Chain' (fun a b => a ≤ b)
      ((0 : ℚ) :: snapProgs (run_full_pipeline envOK cfgW "b1").snaps) := by
  have h : snapProgs (run_full_pipeline envOK cfgW "b1").snaps =
      [2, 4, 10, 12, 18, 20, 26, 28, 34, 30, 32, 35, 42, 45, 50, 80, 90, 100] := rfl
  refine ⟨h, ?_⟩
  rw [h]
  intro hc
  norm_num [List.chain'_cons] at hc

/-- C7 (corrected): over every environment and configuration, the run's
emitted progress values stay within `[0, 100]` and are monotonically
non-decreasing *except* for the single hard-coded dip from 34 (voice B
complete) to 30 (BPM_DETECT entry), captured by `ProgOk`; the terminal
FAILED emit re-uses the current progress and so never decreases it. -/
theorem run_progress_chain (env : Env) (cfg : BattleConfig) (bid : String) :
    List.Chain ProgOk 0 (snapProgs (run_full_pipeline env cfg bid).snaps) ∧
    ∀ q ∈ snapProgs (run_full_pipeline env cfg bid).snaps, progRange q := by
  have ht0 : Tracks (initPipeSt bid cfg) := by
    intro sn hsn
    simp [initPipeSt] at hsn
  cases hrun : runBody env cfg bid (initPipeSt bid cfg) with
  | ok pr =>
    obtain ⟨s, a⟩ := pr
    obtain ⟨new, hsn, hch, hrg, hst, htr, hout, hlast⟩ :=
      (spec_runBody env cfg bid).ok _ s a rfl ht0 hrun
    have hr : run_full_pipeline env cfg bid = s := by
      unfold run_full_pipeline
      rw [hrun]
    have hsn' : s.snaps = new := by
      rw [hsn]
      rfl
    rw [hr, hsn']
    exact ⟨hch, hrg⟩
  | err e s =>
    obtain ⟨new, hsn, hch, hrg, hst, htr, hlast⟩ :=
      (spec_runBody env cfg bid).err _ e s rfl ht0 hrun
    have hr : run_full_pipeline env cfg bid =
        emitU (updFailed e s.state.progress) s := by
      unfold run_full_pipeline
      rw [hrun]
    have hsn' : s.snaps = new := by
      rw [hsn]
      rfl
    have hpr : progRange s.state.progress := by
      rcases lastD_mem_or (snapProgs new) 0 with h0 | h0
      · rw [← hlast, h0]
        exact ⟨le_refl 0, by norm_num⟩
      · rw [← hlast]
        exact hrg _ h0
    have hprog : (state_to_dict (applyUpdate (updFailed e s.state.progress)
        s.state)).progress = s.state.progress := rfl
    have hrs : (run_full_pipeline env cfg bid).snaps =
        new ++ [state_to_dict (applyUpdate (updFailed e s.state.progress) s.state)] := by
      rw [hr, emitU_snaps, hsn']
    constructor
    · rw [hrs, snapProgs_append]
      have h₂ : List.Chain ProgOk (lastD (snapProgs new) 0)
          (snapProgs [state_to_dict (applyUpdate (updFailed e s.state.progress)
            s.state)]) := by
        show List.Chain ProgOk (lastD (snapProgs new) 0)
          [(state_to_dict (applyUpdate (updFailed e s.state.progress)
            s.state)).progress]
        rw [hprog, hlast]
        exact List.chain_cons.mpr ⟨Or.inl le_rfl, List.Chain.nil⟩
      exact chain_append_chain hch h₂
    · intro q hq
      rw [hrs, snapProgs_append] at hq
      rcases List.mem_append.mp hq with h0 | h0
      · exact hrg q h0
      · have hqp : q = s.state.progress := by
          simpa [snapProgs, hprog] using h0
        rw [hqp]
        exact hpr

/-! ## C1 — the FAILED transition -/

/-- C1: whenever the pipeline body raises (at any stage), the final
state of the run has stage FAILED, `message` and `error` carry the
exception text, its progress is exactly the progress left by the last
successful update (witnessed by the last pre-failure snapshot; it is not
reset), and the run ends after pushing exactly one more snapshot — the
body is never re-entered. -/
theorem pipeline_failure_spec (env : Env) (cfg : BattleConfig) (bid : String)
    (e : String) (s' : PipeSt)
    (h : runBody env cfg bid (initPipeSt bid cfg) = .err e s') :
    (run_full_pipeline env cfg bid).state.stage = .failed ∧
    (run_full_pipeline env cfg bid).state.message = e ∧
    (run_full_pipeline env cfg bid).state.error = some e ∧
    (run_full_pipeline env cfg bid).state.progress = s'.state.progress ∧
    (∃ sn, s'.snaps.getLast? = some sn ∧
      (run_full_pipeline env cfg bid).state.progress = sn.progress) ∧
    (run_full_pipeline env cfg bid).snaps =
      s'.snaps ++ [state_to_dict (run_full_pipeline env cfg bid).state] := by
  have h' : runRest env cfg bid (emitU updParsing (initPipeSt bid cfg)) =
      .err e s' := h
  obtain ⟨new, hsn, hch, hrg, hst, htr, hlast⟩ :=
    (spec_runRest env cfg bid).err _ e s' rfl (tracks_emitU _ _) h'
  have hr : run_full_pipeline env cfg bid =
      emitU (updFailed e s'.state.progress) s' := by
    unfold run_full_pipeline
    rw [h]
  have hne : s'.snaps ≠ [] := by
    rw [hsn, emitU_snaps]
    simp [initPipeSt]
  obtain ⟨sn, hgl⟩ := getLast?_of_ne_nil s'.snaps hne
  refine ⟨by rw [hr]; rfl, by rw [hr]; rfl, by rw [hr]; rfl, by rw [hr]; rfl,
    ⟨sn, hgl, ?_⟩, by rw [hr]; rfl⟩
  rw [hr]
  exact (htr sn hgl).symm

/-- C1 witness: the concrete style-transfer explosion `envStyleBoom`
satisfies the hypothesis; the failed run keeps progress 4. -/
theorem pipeline_failure_spec_witness :
    runBody envStyleBoom cfgBoth "b1" (initPipeSt "b1" cfgBoth) =
      .err "boom" c1ErrSt ∧
    (run_full_pipeline envStyleBoom cfgBoth "b1").state.stage = .failed ∧
    (run_full_pipeline envStyleBoom cfgBoth "b1").state.progress =
      c1ErrSt.state.progress :=
  ⟨rfl, (pipeline_failure_spec envStyleBoom cfgBoth "b1" "boom" c1ErrSt rfl).1,
    (pipeline_failure_spec envStyleBoom cfgBoth "b1" "boom" c1ErrSt rfl).2.2.2.1⟩

/-! ## C2 — fatal voice-synthesis failure -/

/-- C2: when both style-reference stages succeed and the voice adapter
returns no artifact for either fighter, the run raises at that voice
stage (with the adapter's status string inside the exception text),
terminates FAILED with that text in both `message` and `error`, and no
snapshot of any later stage is ever emitted. -/
theorem voice_failure_spec (env : Env) (cfg : BattleConfig) (bid : String)
    (ra rb oa ob : Option String) (sa sb : String)
    (h1 : resolveStyleRef env.create_style_reference_a cfg.fighter_a_voice_path
      (get_preset_path cfg.fighter_a_style) = .ok ra)
    (h2 : resolveStyleRef env.create_style_reference_b cfg.fighter_b_voice_path
      (get_preset_path cfg.fighter_b_style) = .ok rb)
    (ha : env.generate_rap_voice_a = .ok (oa, sa))
    (hb : env.generate_rap_voice_b = .ok (ob, sb))
    (hfail : optTruthy oa = false ∨ optTruthy ob = false) :
    (run_full_pipeline env cfg bid).state.stage = .failed ∧
    (optTruthy oa = false →
      (run_full_pipeline env cfg bid).state.message =
        "Failed to generate voice for " ++ cfg.fighter_a_name ++ ": " ++ sa ∧
      (run_full_pipeline env cfg bid).state.error =
        some ("Failed to generate voice for " ++ cfg.fighter_a_name ++ ": " ++ sa)) ∧
    (optTruthy oa = true → optTruthy ob = false →
      (run_full_pipeline env cfg bid).state.message =
        "Failed to generate voice for " ++ cfg.fighter_b_name ++ ": " ++ sb ∧
      (run_full_pipeline env cfg bid).state.error =
        some ("Failed to generate voice for " ++ cfg.fighter_b_name ++ ": " ++ sb)) ∧
    ∀ sn ∈ (run_full_pipeline env cfg bid).snaps,
      sn.stage ∈ [BattleStage.parsing, .style_ref_a, .style_ref_b, .voice_a,
        .voice_b, .failed] := by
  have e2 : ∀ s, stStyleRefA env cfg s =
      .ok (emitU (updStyleRefADone cfg) (emitU (updStyleRefA cfg) s), ra) :=
    fun s => by simp [stStyleRefA, h1]
  have e3 : ∀ s, stStyleRefB env cfg s =
      .ok (emitU (updStyleRefBDone cfg) (emitU (updStyleRefB cfg) s), rb) :=
    fun s => by simp [stStyleRefB, h2]
  have hLv0 : ∀ sn ∈ (initPipeSt bid cfg).snaps,
      sn.stage ∈ [BattleStage.parsing, .style_ref_a, .style_ref_b, .voice_a,
        .voice_b, .failed] := by
    intro sn hsn
    simp [initPipeSt] at hsn
  by_cases hoa : optTruthy oa = true
  · have hob : optTruthy ob = false := by
      rcases hfail with h0 | h0
      · rw [hoa] at h0
        exact absurd h0 (by simp)
      · exact h0
    have e4 : ∀ s, stVoiceA env cfg ra s =
        .ok (emitU (updVoiceADone cfg) (emitU (updVoiceA cfg) s), oa.getD "") :=
      fun s => by simp [stVoiceA, ha, hoa]
    have e5 : ∀ s, stVoiceB env cfg (oa.getD "") rb s =
        .err ("Failed to generate voice for " ++ cfg.fighter_b_name ++ ": " ++ sb)
          (emitU (updVoiceB cfg) s) :=
      fun s => by simp [stVoiceB, hb, hob]
    obtain ⟨sE, hsE⟩ : ∃ t, emitU (updVoiceB cfg) (emitU (updVoiceADone cfg)
        (emitU (updVoiceA cfg) (emitU (updStyleRefBDone cfg)
        (emitU (updStyleRefB cfg) (emitU (updStyleRefADone cfg)
        (emitU (updStyleRefA cfg)
        (emitU updParsing (initPipeSt bid cfg)))))))) = t := ⟨_, rfl⟩
    have hrb : runBody env cfg bid (initPipeSt bid cfg) =
        .err ("Failed to generate voice for " ++ cfg.fighter_b_name ++ ": " ++ sb)
          sE := by
      show seqSt (stStyleRefA env cfg) _ (emitU updParsing (initPipeSt bid cfg)) = _
      rw [seqSt_ok (e2 _)]
      show seqSt (stStyleRefB env cfg) _ _ = _
      rw [seqSt_ok (e3 _)]
      show seqSt (stVoiceA env cfg ra) _ _ = _
      rw [seqSt_ok (e4 _)]
      show seqSt (stVoiceB env cfg (oa.getD "") rb) _ _ = _
      rw [seqSt_err (e5 _), ← hsE]
    have hr : run_full_pipeline env cfg bid =
        emitU (updFailed ("Failed to generate voice for " ++ cfg.fighter_b_name
          ++ ": " ++ sb) sE.state.progress) sE := by
      unfold run_full_pipeline
      rw [hrb]
    have hmem : ∀ sn ∈ sE.snaps,
        sn.stage ∈ [BattleStage.parsing, .style_ref_a, .style_ref_b, .voice_a,
          .voice_b, .failed] := by
      rw [← hsE]
      exact mem_snaps_emitU (mem_snaps_emitU (mem_snaps_emitU (mem_snaps_emitU
        (mem_snaps_emitU (mem_snaps_emitU (mem_snaps_emitU (mem_snaps_emitU hLv0
          (by show BattleStage.parsing ∈ _; decide))
          (by show BattleStage.style_ref_a ∈ _; decide))
          (by show BattleStage.style_ref_a ∈ _; decide))
          (by show BattleStage.style_ref_b ∈ _; decide))
          (by show BattleStage.style_ref_b ∈ _; decide))
          (by show BattleStage.voice_a ∈ _; decide))
          (by show BattleStage.voice_a ∈ _; decide))
          (by show BattleStage.voice_b ∈ _; decide)
    refine ⟨by rw [hr]; rfl, ?_, ?_, ?_⟩
    · intro h0
      rw [hoa] at h0
      exact absurd h0 (by simp)
    · intro _ _
      exact ⟨by rw [hr]; rfl, by rw [hr]; rfl⟩
    · intro sn hsn
      rw [hr] at hsn
      exact mem_snaps_emitU hmem (by show BattleStage.failed ∈ _; decide) sn hsn
  · have hoa' : optTruthy oa = false := by
      cases hx : optTruthy oa
      · rfl
      · exact absurd hx hoa
    have e4 : ∀ s, stVoiceA env cfg ra s =
        .err ("Failed to generate voice for " ++ cfg.fighter_a_name ++ ": " ++ sa)
          (emitU (updVoiceA cfg) s) :=
      fun s => by simp [stVoiceA, ha, hoa']
    obtain ⟨sE, hsE⟩ : ∃ t, emitU (updVoiceA cfg) (emitU (updStyleRefBDone cfg)
        (emitU (updStyleRefB cfg) (emitU (updStyleRefADone cfg)
        (emitU (updStyleRefA cfg)
        (emitU updParsing (initPipeSt bid cfg)))))) = t := ⟨_, rfl⟩
    have hrb : runBody env cfg bid (initPipeSt bid cfg) =
        .err ("Failed to generate voice for " ++ cfg.fighter_a_name ++ ": " ++ sa)
          sE := by
      show seqSt (stStyleRefA env cfg) _ (emitU updParsing (initPipeSt bid cfg)) = _
      rw [seqSt_ok (e2 _)]
      show seqSt (stStyleRefB env cfg) _ _ = _
      rw [seqSt_ok (e3 _)]
      show seqSt (stVoiceA env cfg ra) _ _ = _
      rw [seqSt_err (e4 _), ← hsE]
    have hr : run_full_pipeline env cfg bid =
        emitU (updFailed ("Failed to generate voice for " ++ cfg.fighter_a_name
          ++ ": " ++ sa) sE.state.progress) sE := by
      unfold run_full_pipeline
      rw [hrb]
    have hmem : ∀ sn ∈ sE.snaps,
        sn.stage ∈ [BattleStage.parsing, .style_ref_a, .style_ref_b, .voice_a,
          .voice_b, .failed] := by
      rw [← hsE]
      exact mem_snaps_emitU (mem_snaps_emitU (mem_snaps_emitU (mem_snaps_emitU
        (mem_snaps_emitU (mem_snaps_emitU hLv0
          (by show BattleStage.parsing ∈ _; decide))
          (by show BattleStage.style_ref_a ∈ _; decide))
          (by show BattleStage.style_ref_a ∈ _; decide))
          (by show BattleStage.style_ref_b ∈ _; decide))
          (by show BattleStage.style_ref_b ∈ _; decide))
          (by show BattleStage.voice_a ∈ _; decide)
    refine ⟨by rw [hr]; rfl, ?_, ?_, ?_⟩
    · intro _
      exact ⟨by rw [hr]; rfl, by rw [hr]; rfl⟩
    · intro h0
      exact absurd h0 hoa
    · intro sn hsn
      rw [hr] at hsn
      exact mem_snaps_emitU hmem (by show BattleStage.failed ∈ _; decide) sn hsn

/-- C2 witness: `envVoiceNone` returns no artifact for fighter A; the
run fails with the adapter's status string in the message. -/
theorem voice_failure_spec_witness :
    envVoiceNone.generate_rap_voice_a = .ok (none, "Grok API key missing") ∧
    (run_full_pipeline envVoiceNone cfgW "b1").state.stage = .failed ∧
    (run_full_pipeline envVoiceNone cfgW "b1").state.message =
      "Failed to generate voice for A: Grok API key missing" :=
  ⟨rfl,
    (voice_failure_spec envVoiceNone cfgW "b1" none none none (some "b.mp3")
      "Grok API key missing" "ok" rfl rfl rfl rfl (Or.inl rfl)).1,
    ((voice_failure_spec envVoiceNone cfgW "b1" none none none (some "b.mp3")
      "Grok API key missing" "ok" rfl rfl rfl rfl (Or.inl rfl)).2.1 rfl).1⟩

/-! ## C3 — style-transfer fallback -/

/-- C3: when a fighter supplies both a voice-identity sample and a
preset style clip and the style-transfer call returns no fused artifact,
the resolved style reference is the identity sample path — not `None`
and not the preset path — and the style-reference stage returns
normally (for both fighters' call sites). -/
theorem style_transfer_fallback (env : Env) (cfg : BattleConfig)
    (pa qa pb qb : String)
    (hva : cfg.fighter_a_voice_path = some pa) (hpa : pa ≠ "")
    (hqa : get_preset_path cfg.fighter_a_style = some qa)
    (hcalla : ∃ v st2, env.create_style_reference_a = .ok (none, v, st2))
    (hvb : cfg.fighter_b_voice_path = some pb) (hpb : pb ≠ "")
    (hqb : get_preset_path cfg.fighter_b_style = some qb)
    (hcallb : ∃ v st2, env.create_style_reference_b = .ok (none, v, st2)) :
    (resolveStyleRef env.create_style_reference_a cfg.fighter_a_voice_path
        (get_preset_path cfg.fighter_a_style) = .ok (some pa) ∧
      (some pa : Option String) ≠ none ∧
      (pa ≠ qa → (some pa : Option String) ≠ some qa) ∧
      ∀ s, stStyleRefA env cfg s =
        .ok (emitU (updStyleRefADone cfg) (emitU (updStyleRefA cfg) s), some pa)) ∧
    (resolveStyleRef env.create_style_reference_b cfg.fighter_b_voice_path
        (get_preset_path cfg.fighter_b_style) = .ok (some pb) ∧
      (some pb : Option String) ≠ none ∧
      (pb ≠ qb → (some pb : Option String) ≠ some qb) ∧
      ∀ s, stStyleRefB env cfg s =
        .ok (emitU (updStyleRefBDone cfg) (emitU (updStyleRefB cfg) s), some pb)) := by
  have hall : ∀ v ∈ STYLE_PRESETS.map Prod.snd, v ≠ "" := by decide
  have key : ∀ (call : Except String (Option String × Option String × String))
      (p q : String), p ≠ "" → q ≠ "" →
      (∃ v st2, call = .ok (none, v, st2)) →
      resolveStyleRef call (some p) (some q) = .ok (some p) := by
    intro call p q hp hq hc
    obtain ⟨v, st2, hc⟩ := hc
    subst hc
    have hpe : p.isEmpty = false := by
      rw [Bool.eq_false_iff]
      intro hcontra
      exact hp ((String.isEmpty_iff p).mp hcontra)
    have hqe : q.isEmpty = false := by
      rw [Bool.eq_false_iff]
      intro hcontra
      exact hq ((String.isEmpty_iff q).mp hcontra)
    have htp : optTruthy (some p) = true := by
      simp [optTruthy, strTruthy, hpe]
    have htq : optTruthy (some q) = true := by
      simp [optTruthy, strTruthy, hqe]
    have htn : optTruthy none = false := rfl
    simp [resolveStyleRef, pyOr, htp, htq, htn]
  have hqa' : qa ≠ "" := hall qa (lookup_mem_snd STYLE_PRESETS hqa)
  have hqb' : qb ≠ "" := hall qb (lookup_mem_snd STYLE_PRESETS hqb)
  have hA1 : resolveStyleRef env.create_style_reference_a cfg.fighter_a_voice_path
      (get_preset_path cfg.fighter_a_style) = .ok (some pa) := by
    rw [hva, hqa]
    exact key env.create_style_reference_a pa qa hpa hqa' hcalla
  have hB1 : resolveStyleRef env.create_style_reference_b cfg.fighter_b_voice_path
      (get_preset_path cfg.fighter_b_style) = .ok (some pb) := by
    rw [hvb, hqb]
    exact key env.create_style_reference_b pb qb hpb hqb' hcallb
  refine ⟨⟨hA1, by simp, ?_, fun s => by simp [stStyleRefA, hA1]⟩,
    ⟨hB1, by simp, ?_, fun s => by simp [stStyleRefB, hB1]⟩⟩
  · intro hne
    simp only [ne_eq, Option.some.injEq]
    exact hne
  · intro hne
    simp only [ne_eq, Option.some.injEq]
    exact hne

/-- C3 witness: fighter A of `cfgBoth` has the identity sample
`va.mp3` and the Eminem preset; `envStyleNone` returns no fused
artifact, and the reference resolves to the identity sample. -/
theorem style_transfer_fallback_witness :
    cfgBoth.fighter_a_voice_path = some "va.mp3" ∧
    get_preset_path cfgBoth.fighter_a_style = some "voices/eminem_trimmed.mp3" ∧
    (∃ v st2, envStyleNone.create_style_reference_a = .ok (none, v, st2)) ∧
    resolveStyleRef envStyleNone.create_style_reference_a
      cfgBoth.fighter_a_voice_path (get_preset_path cfgBoth.fighter_a_style) =
      .ok (some "va.mp3") :=
  ⟨rfl, by decide, ⟨none, "style transfer failed", rfl⟩,
    (style_transfer_fallback envStyleNone cfgBoth "va.mp3"
      "voices/eminem_trimmed.mp3" "vb.mp3" "voices/kanye_trimmed.mp3"
      rfl (by decide) (by decide) ⟨none, "style transfer failed", rfl⟩
      rfl (by decide) (by decide)
      ⟨none, "style transfer failed", rfl⟩).1.1⟩
